import Mathlib

/-!
Verification development for the scoring/aggregation engine of
`src/mom_engine.py` (the "sanity index" repository).

Modelling conventions, shared by all definitions below:
  * a pandas `Series` of monthly float values is modelled as a
    `List (Option ℝ)`, positionally indexed by month; `none` models a
    missing value (`NaN`);
  * machine floats are modelled by real numbers; the single place where
    IEEE special values (infinities) qualitatively matter — division by a
    zero previous value inside the `mom`/`yoy` transforms — gets a
    dedicated faithful model (`XVal`, `transform_mom_ext`) with explicit
    `posinf`/`neginf`/`nan` results, while the main pipeline collapses
    non-finite intermediate values to `none`;
  * `date` columns are modelled as month indices (`ℕ`); the spec (§6)
    requires callers to coerce dates to month-start granularity, so the
    `pd.date_range(min, max, freq="MS")` grid becomes a contiguous range
    of naturals.
-/

set_option linter.unusedVariables false

noncomputable section

namespace MomEngine

/-- Arithmetic mean of a list of observations (`pandas` mean of the
non-missing window entries). Zero on the empty list, which is only ever
used below guarded by a positive observation count. -/
def listMean (l : List ℝ) : ℝ := l.sum / l.length

/-- Population variance (`ddof=0`) of a list of observations. -/
def listPopVar (l : List ℝ) : ℝ :=
  ((l.map (fun x => (x - listMean l) ^ 2)).sum) / l.length

/-- Population standard deviation (`ddof=0`), as used by
`series.rolling(...).std(ddof=0)` in `zscore_normalise`. -/
def listPopStd (l : List ℝ) : ℝ := Real.sqrt (listPopVar l)

/-- Minimum of a list of observations (0 on the empty list; only used
guarded by a positive observation count). -/
def listMin : List ℝ → ℝ
  | [] => 0
  | x :: xs => xs.foldl min x

/-- Maximum of a list of observations (0 on the empty list; only used
guarded by a positive observation count). -/
def listMax : List ℝ → ℝ
  | [] => 0
  | x :: xs => xs.foldl max x

/-- The non-missing observations inside the trailing rolling window of
width `w` ending at position `i` — the window a pandas
`series.rolling(w, min_periods=mp)` aggregation sees at row `i`
(positions `i+1-w` through `i`, truncated at the start of the series,
with missing entries dropped). -/
def winObs (xs : List (Option ℝ)) (w i : ℕ) : List ℝ :=
  ((xs.take (i + 1)).drop (i + 1 - w)).filterMap id

/-- One entry of `zscore_normalise` (src/mom_engine.py lines 8–21): the
rolling mean and population std over a `w`-month trailing window with
`min_periods = mp`; a zero std is replaced by `NaN` before dividing
(`roll_std.replace(0, np.nan)`), the z-score is clipped to
`[-clip, clip]`, mapped by `50 + (z / z_to_100_sigma) * 35`, and the
result clipped to `[0, 100]`.  The output is missing when the month's own
value is missing, when fewer than `mp` observations fall in the window,
or when the rolling std is exactly zero. -/
def zscoreAt (xs : List (Option ℝ)) (w mp : ℕ) (clip sigma : ℝ) (i : ℕ) : Option ℝ :=
  match xs.getD i none with
  | none => none
  | some x =>
    let o := winObs xs w i
    if o.length < mp then none
    else if listPopStd o = 0 then none
    else
      let z := min clip (max (-clip) ((x - listMean o) / listPopStd o))
      some (min 100 (max 0 (50 + z / sigma * 35)))

/-- `zscore_normalise(series, window_months, clip, z_to_100_sigma)`
(src/mom_engine.py lines 8–21); `min_periods = max(6, window_months//2)`. -/
def zscore_normalise (xs : List (Option ℝ)) (window_months : ℕ) (clip sigma : ℝ) :
    List (Option ℝ) :=
  (List.range xs.length).map (zscoreAt xs window_months (max 6 (window_months / 2)) clip sigma)

/-- One entry of the minmax fallback branch of `compute_indicator_score`
(src/mom_engine.py lines 57–62): rolling min/max over a `w`-month window
with `min_periods = mp`; a zero range is replaced by `NaN` before
dividing (`(roll_max - roll_min).replace(0, np.nan)`), and the scaled
value is clipped to `[0, 100]`. -/
def minmaxAt (xs : List (Option ℝ)) (w mp : ℕ) (i : ℕ) : Option ℝ :=
  match xs.getD i none with
  | none => none
  | some x =>
    let o := winObs xs w i
    if o.length < mp then none
    else if listMax o - listMin o = 0 then none
    else some (min 100 (max 0 ((x - listMin o) / (listMax o - listMin o) * 100)))

/-- The minmax fallback normalisation over a `w`-month window,
`min_periods = max(6, w//2)` (src/mom_engine.py lines 57–62). -/
def minmax_normalise (xs : List (Option ℝ)) (w : ℕ) : List (Option ℝ) :=
  (List.range xs.length).map (minmaxAt xs w (max 6 (w / 2)))

/-- `transform_series(series, transform)` (src/mom_engine.py lines
23–35).  `level` is the identity, `delta` the first difference, `yoy`
and `mom` are percent changes against the value 12 (resp. 1) months
earlier, and any unknown transform is a passthrough.  Divisions whose
denominator is zero produce IEEE non-finite values in the source; the
pipeline model collapses those to `none` (see `transform_mom_ext` for
the faithful extended-value account of the `mom` case). -/
def transform_series (xs : List (Option ℝ)) (t : String) : List (Option ℝ) :=
  if t = "level" then xs
  else if t = "delta" then
    (List.range xs.length).map (fun i =>
      match (if i = 0 then none else xs.getD (i - 1) none), xs.getD i none with
      | some p, some c => some (c - p)
      | _, _ => none)
  else if t = "yoy" then
    (List.range xs.length).map (fun i =>
      match (if i < 12 then none else xs.getD (i - 12) none), xs.getD i none with
      | some p, some c => if p = 0 then none else some ((c / p - 1) * 100)
      | _, _ => none)
  else if t = "mom" then
    (List.range xs.length).map (fun i =>
      match (if i = 0 then none else xs.getD (i - 1) none), xs.getD i none with
      | some p, some c => if p = 0 then none else some ((c / p - 1) * 100)
      | _, _ => none)
  else xs

/-- The `normalise` sub-dictionary of an indicator spec; absent keys are
modelled as `none` and read through the source's `.get(key, default)`
calls. -/
structure NormCfg where
  method : Option String := none
  window_months : Option ℕ := none
  clip : Option ℝ := none
  z_to_100_sigma : Option ℝ := none

/-- The replacement dictionary `{"method":"zscore","window_months":12,
"clip":3,"z_to_100_sigma":2}` substituted when `normalise` is absent or
empty (src/mom_engine.py lines 50–51). -/
def defaultNorm : NormCfg :=
  { method := some "zscore", window_months := some 12, clip := some 3,
    z_to_100_sigma := some 2 }

/-- One indicator's configuration dictionary. -/
structure IndSpec where
  id : String
  transform : Option String := none
  direction : Option String := none
  section_weight : Option ℝ := none
  normalise : Option NormCfg := none

/-- The first two stages of `compute_indicator_score` (src/mom_engine.py
lines 41–47): apply the configured transform (default `"level"`), then
negate the series (`s = -1.0 * s`) when `direction == "lower_is_worse"`
(default `"higher_is_worse"`). -/
def dirSeries (xs : List (Option ℝ)) (spec : IndSpec) : List (Option ℝ) :=
  let s := transform_series xs (spec.transform.getD "level")
  if spec.direction.getD "higher_is_worse" = "lower_is_worse"
  then s.map (Option.map (fun v => -1 * v)) else s

/-- `compute_indicator_score(df, ind_spec)` (src/mom_engine.py lines
37–63): transform, negate when `direction == "lower_is_worse"`, then
normalise — the zscore path exactly when `normalise.get("method") ==
"zscore"` (with defaults window 12, clip 3, sigma 2), otherwise the
minmax fallback over a default 60-month window. -/
def compute_indicator_score (xs : List (Option ℝ)) (spec : IndSpec) : List (Option ℝ) :=
  let s := dirSeries xs spec
  let norm := spec.normalise.getD defaultNorm
  if norm.method = some "zscore" then
    zscore_normalise s (norm.window_months.getD 12) (norm.clip.getD 3)
      (norm.z_to_100_sigma.getD 2)
  else
    minmax_normalise s (norm.window_months.getD 60)

/-- The masking step of `weighted_mean_row` (`mask = ~np.isnan(vals)`,
`w = weights[mask]`, `v = vals[mask]`): the `(value, weight)` pairs at
the non-missing positions. -/
def definedPairs (vals : List (Option ℝ)) (weights : List ℝ) : List (ℝ × ℝ) :=
  (vals.zip weights).filterMap (fun p => p.1.map (fun v => (v, p.2)))

/-- The branch structure of `weighted_mean_row` over the masked
`(value, weight)` pairs: missing when no pair survives; the plain mean
when the surviving weights sum to zero (`w = np.ones_like(v)/len(v)`);
otherwise the weight-renormalised average
(`np.average(v, weights=w/w.sum())`). -/
def wmrP (pairs : List (ℝ × ℝ)) : Option ℝ :=
  if pairs.isEmpty then none
  else if (pairs.map Prod.snd).sum = 0 then
    some ((pairs.map Prod.fst).sum / pairs.length)
  else
    some ((pairs.map (fun p => p.1 * p.2)).sum / (pairs.map Prod.snd).sum)

/-- The per-month weighted mean with missing-data renormalisation,
`weighted_mean_row(vals, weights)` (src/mom_engine.py lines 132–142):
restrict to the non-missing entries; if none remain the result is
missing; if the restricted weights sum to zero use uniform weights;
otherwise renormalise them to sum to one and average.  The source
duplicates this helper verbatim as `wmean_row` inside
`MoMEngine.compute` (lines 162–172); both are modelled by this single
definition. -/
def weighted_mean_row (vals : List (Option ℝ)) (weights : List ℝ) : Option ℝ :=
  wmrP (definedPairs vals weights)

/-- The up-front weight normalisation `W = W / W.sum() if W.sum() > 0
else np.ones_like(W)/len(W)` applied to section-indicator weights (line
127) and to headline section weights (line 160). -/
def normWeights (ws : List ℝ) : List ℝ :=
  if ws.sum > 0 then ws.map (fun x => x / ws.sum) else ws.map (fun _ => 1 / (ws.length : ℝ))

/-- One month of the headline aggregation (src/mom_engine.py lines
157–177) over a list of `(configured weight, section value)` pairs:
normalise the weight vector up front, then take the per-month weighted
mean with missing-data renormalisation. -/
def headline_row (secs : List (ℝ × Option ℝ)) : Option ℝ :=
  weighted_mean_row (secs.map Prod.snd) (normWeights (secs.map Prod.fst))

/-- The state-passing loop of pandas `Series.ewm(span, adjust=False,
ignore_na=False).mean()`: the state is the current weighted average (if
any observation has been seen) together with the accumulated weight of
that average, which decays by `1 - α` across missing entries and resets
to one after each observation. -/
def ewmaGo (a : ℝ) : Option ℝ → ℝ → List (Option ℝ) → List (Option ℝ)
  | _, _, [] => []
  | none, w, none :: rest => none :: ewmaGo a none w rest
  | none, _, some x :: rest => some x :: ewmaGo a (some x) 1 rest
  | some m, w, none :: rest => some m :: ewmaGo a (some m) (w * (1 - a)) rest
  | some m, w, some x :: rest =>
    some ((w * (1 - a) * m + a * x) / (w * (1 - a) + a)) ::
      ewmaGo a (some ((w * (1 - a) * m + a * x) / (w * (1 - a) + a))) 1 rest

/-- `series.ewm(span=span, adjust=False).mean()` with
`α = 2 / (span + 1)` (src/mom_engine.py lines 65–66 and 179–180). -/
def ewma (a : ℝ) (xs : List (Option ℝ)) : List (Option ℝ) := ewmaGo a none 1 xs

/-- One row of the long-format input `timeseries` DataFrame
(`series_id`, `date`, `value`); dates are month indices. -/
structure Row where
  sid : String
  date : ℕ
  value : Option ℝ

/-- One section of the configuration: id, headline weight, and the list
of indicator specs. -/
structure SectionSpec where
  id : String
  weight : ℝ
  indicators : List IndSpec

/-- The engine configuration: the `sections` list plus
`composite.smoothing.span_months` (absent keys modelled as `none`,
default 3). -/
structure Config where
  sections : List SectionSpec
  span_months : Option ℕ := none

/-- The monthly calendar grid `pd.date_range(ts["date"].min(),
ts["date"].max(), freq="MS")` (line 100), as the contiguous range of
month indices from the earliest to the latest input date.  On an empty
input the source does not reach this grid at all — `ts["date"].min()`
is `NaT` and `pd.date_range` raises a `ValueError` — so `compute` below
rejects empty input before using this function; the `[]` fallback here
is an unreachable totality default, not a model of that crash. -/
def gridOf (rows : List Row) : List ℕ :=
  match (rows.map Row.date).min?, (rows.map Row.date).max? with
  | some a, some b => List.range' a (b + 1 - a)
  | _, _ => []

/-- The per-indicator series extraction
`ts[ts["series_id"] == sid][["date","value"]].set_index("date")
.reindex(full_months)` (line 116): for each grid month, the value of the
first input row with that series id and date.  `reindex` raises on a
duplicated date index, so `compute` below rejects inputs where any
configured indicator id matches rows with a duplicated date; on the
inputs that get past that guard, the first match is the only match. -/
def seriesOf (rows : List Row) (sid : String) (grid : List ℕ) : List (Option ℝ) :=
  grid.map (fun d => (rows.find? (fun r => r.sid == sid && r.date == d)).bind Row.value)

/-- The indicator loop of `MoMEngine.compute` for one section (lines
113–122): indicators whose aligned series is entirely missing are
skipped; each remaining indicator contributes its score series and its
weight `ind.get("section_weight", 1.0/len(inds))`. -/
def secIndicatorScores (rows : List Row) (grid : List ℕ) (sec : SectionSpec) :
    List (List (Option ℝ) × ℝ) :=
  sec.indicators.filterMap (fun ind =>
    let s := seriesOf rows ind.id grid
    if s.all (fun v => v.isNone) then none
    else some (compute_indicator_score s ind,
      ind.section_weight.getD (1 / (sec.indicators.length : ℝ))))

/-- One section's score series (lines 123–148): `none` when no indicator
of the section has any data (the section is dropped); otherwise the
per-month weighted mean of the contributing indicators' scores under the
up-front-normalised weight vector. -/
def sectionScore (rows : List Row) (grid : List ℕ) (sec : SectionSpec) :
    Option (List (Option ℝ)) :=
  let scored := secIndicatorScores rows grid sec
  if scored.isEmpty then none
  else
    let W := normWeights (scored.map Prod.snd)
    some ((List.range grid.length).map (fun m =>
      weighted_mean_row (scored.map (fun p => p.1.getD m none)) W))

/-- `MoMEngine.compute(timeseries)` (src/mom_engine.py lines 93–181).
Two pandas crash paths are modelled as their own error branches: on an
empty input frame, `pd.date_range(NaT, NaT, freq="MS")` at line 100
raises a `ValueError` whose message says neither start nor end can be
`NaT`; and whenever some configured indicator id matches rows with a
duplicated date, `set_index("date").reindex(full_months)` at line 116
raises pandas' duplicate-labels `ValueError` (this happens inside the
section loop, before the descriptive raise at line 153 can be reached).
Otherwise the outputs are the per-section score series for the sections
that produced any indicator score, the raw headline (per-month weighted
mean of section scores with the normalised section weights), and the
EWMA-smoothed headline with span `composite.smoothing.span_months`
(default 3); the source's own descriptive `ValueError` (line 153) is
raised exactly when no section produced any indicator score. -/
def compute (cfg : Config) (rows : List Row) :
    Except String (List (String × List (Option ℝ)) × List (Option ℝ) × List (Option ℝ)) :=
  if rows.isEmpty then
    .error "Neither start nor end can be NaT"
  else if ∃ sec ∈ cfg.sections, ∃ ind ∈ sec.indicators,
      ¬((rows.filter (fun r => r.sid == ind.id)).map Row.date).Nodup then
    .error "cannot reindex on an axis with duplicate labels"
  else
  let grid := gridOf rows
  let secs := cfg.sections.filterMap (fun sec =>
    (sectionScore rows grid sec).map (fun s => (sec.id, sec.weight, s)))
  if secs.isEmpty then
    .error "No section scores computed (no data matched config indicator ids)."
  else
    let hw := normWeights (secs.map (fun s => s.2.1))
    let headline := (List.range grid.length).map (fun m =>
      weighted_mean_row (secs.map (fun s => s.2.2.getD m none)) hw)
    let smoothed := ewma (2 / ((cfg.span_months.getD 3 : ℝ) + 1)) headline
    .ok (secs.map (fun s => (s.1, s.2.2)), headline, smoothed)

/-- The latest value of the 12-month rolling z-score computed inside
`momentum_label` (src/mom_engine.py lines 73–74).  The source divides by
the raw rolling std without a zero-replacement; but a zero std forces
every window observation — including the last value itself — to equal
the window mean, so the source's quotient is `0.0/0.0 = NaN` there,
modelled as `none`. -/
def momentum_z_last (xs : List (Option ℝ)) : Option ℝ :=
  match xs.getD (xs.length - 1) none with
  | none => none
  | some x =>
    let o := winObs xs 12 (xs.length - 1)
    if o.length < 6 then none
    else if listPopStd o = 0 then none
    else some ((x - listMean o) / listPopStd o)

/-- The 3-month slope `series.iloc[-1] - series.iloc[-3]` used inside
`momentum_label` (line 75); `0.0` when the series has fewer than 3
entries, missing when either endpoint is missing. -/
def momentum_slope (xs : List (Option ℝ)) : Option ℝ :=
  if 3 ≤ xs.length then
    match xs.getD (xs.length - 1) none, xs.getD (xs.length - 3) none with
    | some c, some p => some (c - p)
    | _, _ => none
  else some 0

/-- A float comparison `a >= c` where `a` may be `NaN` (missing):
`False` on missing, as in Python. -/
def ogeB (a : Option ℝ) (c : ℝ) : Bool :=
  match a with
  | none => false
  | some x => if c ≤ x then true else false

/-- A float comparison `a > c` where `a` may be `NaN` (missing):
`False` on missing, as in Python. -/
def ogtB (a : Option ℝ) (c : ℝ) : Bool :=
  match a with
  | none => false
  | some x => if c < x then true else false

/-- A float comparison `a <= c` where `a` may be `NaN` (missing):
`False` on missing, as in Python. -/
def oleB (a : Option ℝ) (c : ℝ) : Bool :=
  match a with
  | none => false
  | some x => if x ≤ c then true else false

/-- A float comparison `a < c` where `a` may be `NaN` (missing):
`False` on missing, as in Python. -/
def oltB (a : Option ℝ) (c : ℝ) : Bool :=
  match a with
  | none => false
  | some x => if x < c then true else false

/-- `momentum_label(series)` (src/mom_engine.py lines 68–81):
`"Unknown"` when the series has no non-missing value; `"Worsening"` when
the latest 12-month rolling z-score is `>= 0.5` OR the 3-month slope is
`> 0.5`; otherwise `"Easing"` when the z-score is `<= -0.5` OR the slope
is `< -0.5`; otherwise `"Stable"`. -/
def momentum_label (xs : List (Option ℝ)) : String :=
  if (xs.filterMap id).isEmpty then "Unknown"
  else if ogeB (momentum_z_last xs) (1 / 2) || ogtB (momentum_slope xs) (1 / 2) then
    "Worsening"
  else if oleB (momentum_z_last xs) (-(1 / 2)) || oltB (momentum_slope xs) (-(1 / 2)) then
    "Easing"
  else "Stable"

/-- An IEEE double restricted to the values the `mom` transform can
produce: a finite real, a signed infinity, or `NaN`. -/
inductive XVal
  | nan : XVal
  | posinf : XVal
  | neginf : XVal
  | fin : ℝ → XVal
deriving DecidableEq

/-- IEEE semantics of one entry of `(s / s.shift(1) - 1.0) * 100.0`:
`NaN` when either operand is missing or on `0.0/0.0`; a signed infinity
when the previous value is zero and the current value is a nonzero
finite number; otherwise the finite percent change. -/
def momDivExt (cur prev : Option ℝ) : XVal :=
  match cur, prev with
  | none, _ => .nan
  | some _, none => .nan
  | some c, some p =>
    if p = 0 then (if c = 0 then .nan else if 0 < c then .posinf else .neginf)
    else .fin ((c / p - 1) * 100)

/-- The faithful extended-value model of the `mom` branch of
`transform_series` (src/mom_engine.py lines 31–32), tracking the IEEE
infinities that `s / s.shift(1)` produces on a zero denominator. -/
def transform_mom_ext (xs : List (Option ℝ)) : List XVal :=
  (List.range xs.length).map (fun i =>
    momDivExt (xs.getD i none) (if i = 0 then none else xs.getD (i - 1) none))

/-- A copy of an indicator spec with only its `direction` field
replaced — "a spec differing only in `direction`" in the words of the
directionality-inversion property. -/
def withDirection (spec : IndSpec) (d : String) : IndSpec :=
  { spec with direction := some d }

/-- The Worsening test of `momentum_label` (line 76) read as a
proposition: the latest 12-month rolling z-score is defined and
`>= 0.5`, or the 3-month slope is defined and `> 0.5` (a comparison
against an undefined value is false). -/
def worseningSignal (xs : List (Option ℝ)) : Prop :=
  (∃ z, momentum_z_last xs = some z ∧ 1 / 2 ≤ z) ∨
  (∃ sl, momentum_slope xs = some sl ∧ 1 / 2 < sl)

/-- The Easing test of `momentum_label` (line 78) read as a proposition:
the latest 12-month rolling z-score is defined and `<= -0.5`, or the
3-month slope is defined and `< -0.5`. -/
def easingSignal (xs : List (Option ℝ)) : Prop :=
  (∃ z, momentum_z_last xs = some z ∧ z ≤ -(1 / 2)) ∨
  (∃ sl, momentum_slope xs = some sl ∧ sl < -(1 / 2))

/-- Concrete input for the C8 counterexample: nine months of 10, then
0, 0, 1 — a series that collapsed (z-score strongly negative) with a
small recent uptick (3-month slope `+1`). -/
def ex8 : List (Option ℝ) :=
  [some 10, some 10, some 10, some 10, some 10, some 10, some 10, some 10, some 10,
    some 0, some 0, some 1]

/-- Concrete input for C1: twelve months of 10 followed by a jump to 20
(the spec's end-to-end scenario series A). -/
def series13 : List (Option ℝ) := List.replicate 12 (some 10) ++ [some 20]

/-- Concrete indicator spec for C1: level transform, higher-is-worse,
zscore with window 12, min_periods 6, clip 3, z_to_100_sigma 2 (all the
defaults, as in the spec's scenario). -/
def spec1 : IndSpec := { id := "a" }

/-- Concrete indicator for the C7 counterexample: series id `"a"`,
weight 1, default zscore normalisation. -/
def ind7 : IndSpec := { id := "a", section_weight := some 1 }

/-- Concrete section for the C7 counterexample. -/
def sec7 : SectionSpec := { id := "s1", weight := 1, indicators := [ind7] }

/-- Concrete config for the C7 counterexample. -/
def cfg7 : Config := { sections := [sec7] }

/-- Concrete rows for the C7 counterexample: three observations of
series `"a"` — data exists, but far fewer than the six observations the
zscore window needs, so no score value is ever produced. -/
def rows7 : List Row := [⟨"a", 0, some 1⟩, ⟨"a", 1, some 2⟩, ⟨"a", 2, some 3⟩]

/-- Concrete rows for the C7 amended witness: a single row of the
configured series whose value is missing — a nonempty, duplicate-free
input on which the source genuinely reaches and raises the descriptive
aggregation error (the all-`NaN` series makes the indicator skipped and
`section_scores` empty). -/
def rows7b : List Row := [⟨"a", 0, none⟩]

/-- Concrete input for the C3 witness: seven increasing months. -/
def xs7 : List (Option ℝ) :=
  [some 1, some 2, some 3, some 4, some 5, some 6, some 7]

/-- Concrete base indicator spec for the C3 witness: all fields default
(level transform, zscore with window 12, clip 3, sigma 2). -/
def spec3 : IndSpec := { id := "a" }

/-- Concrete input for the C10 witness: thirty months of the constant 5. -/
def ex10xs : List (Option ℝ) := List.replicate 30 (some 5)

/-- Concrete indicator spec for the C10 witness: a non-`"zscore"` method
and no `window_months`. -/
def ex10spec : IndSpec :=
  { id := "x", normalise := some { method := some "percentile" } }

/-! ### Helper lemmas -/

theorem range_map_get {α : Type} (f : ℕ → α) (n i : ℕ) (h : i < n) :
    ((List.range n).map f).get? i = some (f i) := by
  simp [List.get?_eq_getElem?, List.getElem?_map, List.getElem?_range h]

/-! ### C2: zero rolling std makes the zscore output missing -/

/-- C2: for every input series and every month at which the rolling
population standard deviation over the trailing window is defined
(enough observations) and exactly zero, the zscore-normalised score at
that month is missing — the total function returns `none`, never a
default such as 50. -/
theorem C2_zero_std_undefined (xs : List (Option ℝ)) (w : ℕ) (c s : ℝ) (i : ℕ)
    (hi : i < xs.length)
    (hcnt : max 6 (w / 2) ≤ (winObs xs w i).length)
    (hstd : listPopStd (winObs xs w i) = 0) :
    (zscore_normalise xs w c s).get? i = some none := by
  rw [zscore_normalise, range_map_get _ _ _ hi, zscoreAt]
  cases hx : xs.getD i none with
  | none => rfl
  | some x => simp [if_neg (not_lt.2 hcnt), hstd]

/-- Witness for C2 at a concrete constant series: six observations of 10
inside a 12-month window give a defined rolling std of exactly zero, and
the score at that month is missing. -/
theorem C2_zero_std_undefined_witness :
    (zscore_normalise (List.replicate 6 (some (10 : ℝ))) 12 3 2).get? 5 = some none := by
  have hwin : winObs (List.replicate 6 (some (10 : ℝ))) 12 5 = List.replicate 6 10 := rfl
  apply C2_zero_std_undefined
  · simp
  · rw [hwin]; simp
  · rw [hwin]
    norm_num [listPopStd, listPopVar, listMean, List.sum_replicate, List.map_replicate]

theorem definedPairs_none (vals : List (Option ℝ)) (ws : List ℝ)
    (h : ∀ x ∈ vals, x = none) : definedPairs vals ws = [] := by
  rw [definedPairs, List.filterMap_eq_nil_iff]
  intro p hp
  rcases p with ⟨pv, pw⟩
  rw [h _ (List.of_mem_zip hp).1]
  rfl

theorem transform_series_length (xs : List (Option ℝ)) (t : String) :
    (transform_series xs t).length = xs.length := by
  rw [transform_series]
  split_ifs <;> simp

theorem foldl_max_self (n : ℕ) (x : ℝ) : (List.replicate n x).foldl max x = x := by
  induction n with
  | zero => rfl
  | succ k ih => rw [List.replicate_succ, List.foldl_cons, max_self]; exact ih

theorem foldl_min_self (n : ℕ) (x : ℝ) : (List.replicate n x).foldl min x = x := by
  induction n with
  | zero => rfl
  | succ k ih => rw [List.replicate_succ, List.foldl_cons, min_self]; exact ih

theorem listMax_replicate (n : ℕ) (x : ℝ) : listMax (List.replicate (n + 1) x) = x := by
  rw [List.replicate_succ, listMax]
  exact foldl_max_self n x

theorem listMin_replicate (n : ℕ) (x : ℝ) : listMin (List.replicate (n + 1) x) = x := by
  rw [List.replicate_succ, listMin]
  exact foldl_min_self n x

/-! ### C5: a single defined indicator survives with full weight -/

/-- C5: for every month at which exactly one of the section's scored
indicators has a defined score (here: the defined score `v` sits between
two runs of missing values), `weighted_mean_row` returns exactly that
score, whatever the configured weights are — the per-month
renormalisation collapses the surviving weight to 1. -/
theorem C5_single_defined_collapses (l₁ l₂ : List (Option ℝ)) (w₁ w₂ : List ℝ) (w v : ℝ)
    (hlen : l₁.length = w₁.length)
    (h₁ : ∀ x ∈ l₁, x = none) (h₂ : ∀ x ∈ l₂, x = none) :
    weighted_mean_row (l₁ ++ some v :: l₂) (w₁ ++ w :: w₂) = some v := by
  have hdp : definedPairs (l₁ ++ some v :: l₂) (w₁ ++ w :: w₂) = [(v, w)] := by
    rw [definedPairs, List.zip_append hlen, List.filterMap_append]
    have e₁ : definedPairs l₁ w₁ = [] := definedPairs_none _ _ h₁
    have e₂ : definedPairs l₂ w₂ = [] := definedPairs_none _ _ h₂
    rw [definedPairs] at e₁ e₂
    rw [e₁, List.zip_cons_cons, List.filterMap_cons, e₂]
    rfl
  rw [weighted_mean_row, hdp]
  by_cases hw : w = 0
  · simp [wmrP, hw]
  · simp [wmrP, hw, mul_div_assoc, div_self hw]

/-- Witness for C5: among three indicator slots with weights `5, 7, 9`,
only the middle one is defined (score 42); the section month-value is 42
regardless of the weights. -/
theorem C5_single_defined_collapses_witness :
    weighted_mean_row [none, some 42, none] [5, 7, 9] = some 42 := by
  have h := C5_single_defined_collapses [none] [none] [5] [9] 7 42 (by simp)
    (by intro x hx; simpa using hx) (by intro x hx; simpa using hx)
  simpa using h

/-! ### C10: minmax fallback with its 60-month default window -/

/-- C10: when `normalise.method` is present but not `"zscore"` and
`window_months` is unspecified, `compute_indicator_score` runs the
minmax fallback over a default 60-month rolling window (not the
12-month zscore default) with `min_periods = max(6, 60//2)`; months
with fewer window observations, and months whose rolling max equals the
rolling min, get a missing score. -/
theorem C10_minmax_default_window (xs : List (Option ℝ)) (spec : IndSpec) (n : NormCfg)
    (hn : spec.normalise = some n) (hm : n.method ≠ some "zscore")
    (hwm : n.window_months = none) :
    compute_indicator_score xs spec = minmax_normalise (dirSeries xs spec) 60 ∧
    ∀ i < xs.length,
      ((winObs (dirSeries xs spec) 60 i).length < max 6 (60 / 2) →
        (compute_indicator_score xs spec).get? i = some none) ∧
      (listMax (winObs (dirSeries xs spec) 60 i) = listMin (winObs (dirSeries xs spec) 60 i) →
        (compute_indicator_score xs spec).get? i = some none) := by
  have hlen : (dirSeries xs spec).length = xs.length := by
    rw [dirSeries]
    split_ifs <;> simp [transform_series_length]
  have heq : compute_indicator_score xs spec = minmax_normalise (dirSeries xs spec) 60 := by
    rw [compute_indicator_score]
    simp only [hn, Option.getD_some, if_neg hm, hwm, Option.getD_none]
  refine ⟨heq, fun i hi => ?_⟩
  have hi' : i < (dirSeries xs spec).length := hlen ▸ hi
  constructor
  · intro hcnt
    rw [heq, minmax_normalise, range_map_get _ _ _ hi', minmaxAt]
    cases hx : (dirSeries xs spec).getD i none with
    | none => rfl
    | some x =>
      have hcnt' : (winObs (dirSeries xs spec) 60 i).length < 30 := hcnt
      simp [hcnt']
  · intro hmm
    rw [heq, minmax_normalise, range_map_get _ _ _ hi', minmaxAt]
    cases hx : (dirSeries xs spec).getD i none with
    | none => rfl
    | some x =>
      have hz : listMax (winObs (dirSeries xs spec) 60 i) -
          listMin (winObs (dirSeries xs spec) 60 i) = 0 := by
        rw [hmm, sub_self]
      simp [hz]

/-- Witness for C10 at a concrete flat series of thirty 5s with a
non-`"zscore"` method and no configured window: the score equals the
60-month minmax fallback output, and month 29 (a full-count flat
window) is missing because rolling max equals rolling min. -/
theorem C10_minmax_default_window_witness :
    compute_indicator_score ex10xs ex10spec = minmax_normalise ex10xs 60 ∧
    (compute_indicator_score ex10xs ex10spec).get? 29 = some none := by
  have h := C10_minmax_default_window ex10xs ex10spec
    { method := some "percentile" } rfl (by simp) rfl
  have hs : dirSeries ex10xs ex10spec = ex10xs := rfl
  rw [hs] at h
  have hlen29 : 29 < ex10xs.length := by norm_num [ex10xs]
  refine ⟨h.1, (h.2 29 hlen29).2 ?_⟩
  have hwin : winObs ex10xs 60 29 = List.replicate 30 5 := rfl
  rw [hwin, show (30 : ℕ) = 29 + 1 from rfl, listMax_replicate, listMin_replicate]

/-! ### C4: the mom transform on a zero previous value -/

/-- C4 counterexample: on the two-month series `[0, 5]` the source's
`mom` transform `(s / s.shift(1) - 1.0) * 100.0` produces `+inf` at the
second month (IEEE `5.0/0.0`), not a missing value — refuting the claim
that a zero previous value always yields a missing, never-infinite
output. -/
theorem C4_counterexample :
    transform_mom_ext [some 0, some 5] = [XVal.nan, XVal.posinf] := by
  norm_num [transform_mom_ext, momDivExt, List.range_succ]

/-- C4 amended: the `mom` transform output at month `i` is `NaN` exactly
when the previous value is missing (including month 0), the current
value is missing, or both are zero (`0.0/0.0`); when the previous value
is zero and the current value is a nonzero number the output is the
correspondingly signed infinity (not missing); and on a nonzero previous
value it is the finite percent change.  No exception is raised: the
transform is total. -/
theorem C4_amended (xs : List (Option ℝ)) (i : ℕ) (hi : i < xs.length) :
    ((if i = 0 then none else xs.getD (i - 1) none) = none →
      (transform_mom_ext xs).get? i = some XVal.nan) ∧
    (xs.getD i none = none → (transform_mom_ext xs).get? i = some XVal.nan) ∧
    ((if i = 0 then none else xs.getD (i - 1) none) = some 0 → xs.getD i none = some 0 →
      (transform_mom_ext xs).get? i = some XVal.nan) ∧
    (∀ c : ℝ, 0 < c → (if i = 0 then none else xs.getD (i - 1) none) = some 0 →
      xs.getD i none = some c → (transform_mom_ext xs).get? i = some XVal.posinf) ∧
    (∀ c : ℝ, c < 0 → (if i = 0 then none else xs.getD (i - 1) none) = some 0 →
      xs.getD i none = some c → (transform_mom_ext xs).get? i = some XVal.neginf) ∧
    (∀ p c : ℝ, p ≠ 0 → (if i = 0 then none else xs.getD (i - 1) none) = some p →
      xs.getD i none = some c →
      (transform_mom_ext xs).get? i = some (XVal.fin ((c / p - 1) * 100))) := by
  rw [transform_mom_ext, range_map_get _ _ _ hi]
  refine ⟨fun hp => ?_, fun hc => ?_, fun hp hc => ?_, fun c hcpos hp hc => ?_,
    fun c hcneg hp hc => ?_, fun p c hpne hp hc => ?_⟩
  · rw [hp]
    cases xs.getD i none <;> rfl
  · rw [hc]
    rfl
  · rw [hp, hc]
    simp [momDivExt]
  · rw [hp, hc]
    simp [momDivExt, ne_of_gt hcpos, hcpos]
  · rw [hp, hc]
    simp [momDivExt, ne_of_lt hcneg, asymm hcneg]
  · rw [hp, hc]
    simp [momDivExt, hpne]

/-- Witness for C4 amended at the series `[0, -5]`: a zero previous
value with a negative current value yields `-inf` at month 1. -/
theorem C4_amended_witness :
    (transform_mom_ext [some 0, some (-5)]).get? 1 = some XVal.neginf := by
  refine (C4_amended [some 0, some (-5)] 1 (by norm_num)).2.2.2.2.1 (-5)
    (by norm_num) (by norm_num) (by norm_num)

/-! ### C3: directionality inversion mirrors scores around 50 -/

theorem negmul_eq : (fun v : ℝ => -1 * v) = Neg.neg := funext fun v => neg_one_mul v

theorem getD_map_none (f : Option ℝ → Option ℝ) (hf : f none = none)
    (xs : List (Option ℝ)) (i : ℕ) :
    (xs.map f).getD i none = f (xs.getD i none) := by
  induction xs generalizing i with
  | nil => simp [hf]
  | cons x t ih =>
    cases i with
    | zero => simp
    | succ n =>
      simp only [List.map_cons, List.getD_cons_succ]
      exact ih n

theorem filterMap_optionMap (f : ℝ → ℝ) (l : List (Option ℝ)) :
    (l.map (Option.map f)).filterMap id = (l.filterMap id).map f := by
  induction l with
  | nil => rfl
  | cons x t ih => cases x <;> simp [ih]

theorem winObs_map (f : ℝ → ℝ) (xs : List (Option ℝ)) (w i : ℕ) :
    winObs (xs.map (Option.map f)) w i = (winObs xs w i).map f := by
  rw [winObs, winObs, ← List.map_take, ← List.map_drop, filterMap_optionMap]

theorem sum_map_neg (l : List ℝ) : (l.map Neg.neg).sum = -l.sum := by
  induction l with
  | nil => simp
  | cons x t ih => simp [ih]; ring

theorem listMean_neg (l : List ℝ) : listMean (l.map Neg.neg) = -listMean l := by
  rw [listMean, listMean, sum_map_neg, List.length_map, neg_div]

theorem listPopVar_neg (l : List ℝ) : listPopVar (l.map Neg.neg) = listPopVar l := by
  rw [listPopVar, listPopVar, listMean_neg, List.length_map, List.map_map]
  have hmap : l.map ((fun x => (x - -listMean l) ^ 2) ∘ Neg.neg) =
      l.map (fun x => (x - listMean l) ^ 2) := by
    apply List.map_congr_left
    intro x hx
    simp only [Function.comp_apply]
    ring
  rw [hmap]

theorem listPopStd_neg (l : List ℝ) : listPopStd (l.map Neg.neg) = listPopStd l := by
  rw [listPopStd, listPopStd, listPopVar_neg]

theorem foldl_min_neg (l : List ℝ) : ∀ x : ℝ, (l.map Neg.neg).foldl min (-x) = -(l.foldl max x) := by
  induction l with
  | nil => intro x; rfl
  | cons y t ih =>
    intro x
    simp only [List.map_cons, List.foldl_cons, min_neg_neg]
    exact ih (max x y)

theorem foldl_max_neg (l : List ℝ) : ∀ x : ℝ, (l.map Neg.neg).foldl max (-x) = -(l.foldl min x) := by
  induction l with
  | nil => intro x; rfl
  | cons y t ih =>
    intro x
    simp only [List.map_cons, List.foldl_cons, max_neg_neg]
    exact ih (min x y)

theorem listMin_neg (l : List ℝ) : listMin (l.map Neg.neg) = -listMax l := by
  cases l with
  | nil => simp [listMin, listMax]
  | cons x t => exact foldl_min_neg t x

theorem listMax_neg (l : List ℝ) : listMax (l.map Neg.neg) = -listMin l := by
  cases l with
  | nil => simp [listMin, listMax]
  | cons x t => exact foldl_max_neg t x

theorem clip_neg (c z : ℝ) (hc : 0 ≤ c) :
    min c (max (-c) (-z)) = -(min c (max (-c) z)) := by
  rcases le_total z (-c) with h | h <;> rcases le_total z c with h2 | h2 <;>
    simp [min_def, max_def] <;> split_ifs <;> linarith

theorem clamp_mirror (m : ℝ) : min 100 (max 0 (100 - m)) = 100 - min 100 (max 0 m) := by
  rcases le_total m 0 with h | h <;> rcases le_total m 100 with h2 | h2 <;>
    simp [min_def, max_def] <;> split_ifs <;> linarith

theorem zscoreAt_neg (xs : List (Option ℝ)) (w mp : ℕ) (c s : ℝ) (hc : 0 ≤ c) (i : ℕ) :
    zscoreAt (xs.map (Option.map Neg.neg)) w mp c s i =
      Option.map (fun a => 100 - a) (zscoreAt xs w mp c s i) := by
  cases hx : xs.getD i none with
  | none =>
    have hx' : (xs.map (Option.map Neg.neg)).getD i none = none := by
      rw [getD_map_none (Option.map Neg.neg) rfl, hx]
      rfl
    rw [zscoreAt, zscoreAt, hx', hx]
    rfl
  | some x =>
    have hx' : (xs.map (Option.map Neg.neg)).getD i none = some (-x) := by
      rw [getD_map_none (Option.map Neg.neg) rfl, hx]
      rfl
    rw [zscoreAt, zscoreAt, hx', hx]
    simp only [winObs_map, List.length_map, listPopStd_neg, listMean_neg]
    by_cases hlen : (winObs xs w i).length < mp
    · simp [hlen]
    · by_cases hstd : listPopStd (winObs xs w i) = 0
      · simp [hlen, hstd]
      · simp only [if_neg hlen, if_neg hstd, Option.map_some', Option.some.injEq]
        have hz : (-x - -listMean (winObs xs w i)) / listPopStd (winObs xs w i) =
            -((x - listMean (winObs xs w i)) / listPopStd (winObs xs w i)) := by
          rw [← neg_div]
          ring_nf
        rw [hz, clip_neg _ _ hc]
        have hmap : 50 + -(min c (max (-c)
              ((x - listMean (winObs xs w i)) / listPopStd (winObs xs w i)))) / s * 35 =
            100 - (50 + (min c (max (-c)
              ((x - listMean (winObs xs w i)) / listPopStd (winObs xs w i)))) / s * 35) := by
          ring
        rw [hmap, clamp_mirror]

theorem minmaxAt_neg (xs : List (Option ℝ)) (w mp : ℕ) (i : ℕ) :
    minmaxAt (xs.map (Option.map Neg.neg)) w mp i =
      Option.map (fun a => 100 - a) (minmaxAt xs w mp i) := by
  cases hx : xs.getD i none with
  | none =>
    have hx' : (xs.map (Option.map Neg.neg)).getD i none = none := by
      rw [getD_map_none (Option.map Neg.neg) rfl, hx]
      rfl
    rw [minmaxAt, minmaxAt, hx', hx]
    rfl
  | some x =>
    have hx' : (xs.map (Option.map Neg.neg)).getD i none = some (-x) := by
      rw [getD_map_none (Option.map Neg.neg) rfl, hx]
      rfl
    rw [minmaxAt, minmaxAt, hx', hx]
    simp only [winObs_map, List.length_map, listMin_neg, listMax_neg]
    have hflip : -listMin (winObs xs w i) - -listMax (winObs xs w i) =
        listMax (winObs xs w i) - listMin (winObs xs w i) := by ring
    rw [hflip]
    by_cases hlen : (winObs xs w i).length < mp
    · simp [hlen]
    · by_cases hrng : listMax (winObs xs w i) - listMin (winObs xs w i) = 0
      · simp [hlen, hrng]
      · have hne : listMax (winObs xs w i) - listMin (winObs xs w i) ≠ 0 := hrng
        simp only [if_neg hlen, if_neg hrng, Option.map_some', Option.some.injEq]
        have hval : (-x - -listMax (winObs xs w i)) /
              (listMax (winObs xs w i) - listMin (winObs xs w i)) * 100 =
            100 - (x - listMin (winObs xs w i)) /
              (listMax (winObs xs w i) - listMin (winObs xs w i)) * 100 := by
          field_simp
          ring
        rw [hval, clamp_mirror]

theorem zscore_normalise_neg (xs : List (Option ℝ)) (w : ℕ) (c s : ℝ) (hc : 0 ≤ c) :
    zscore_normalise (xs.map (Option.map Neg.neg)) w c s =
      (zscore_normalise xs w c s).map (Option.map (fun a => 100 - a)) := by
  rw [zscore_normalise, zscore_normalise, List.length_map, List.map_map]
  apply List.map_congr_left
  intro i hi
  exact zscoreAt_neg xs w _ c s hc i

theorem minmax_normalise_neg (xs : List (Option ℝ)) (w : ℕ) :
    minmax_normalise (xs.map (Option.map Neg.neg)) w =
      (minmax_normalise xs w).map (Option.map (fun a => 100 - a)) := by
  rw [minmax_normalise, minmax_normalise, List.length_map, List.map_map]
  apply List.map_congr_left
  intro i hi
  exact minmaxAt_neg xs w _ i

theorem dirSeries_higher (xs : List (Option ℝ)) (spec : IndSpec) :
    dirSeries xs (withDirection spec "higher_is_worse") =
      transform_series xs (spec.transform.getD "level") := rfl

theorem dirSeries_lower (xs : List (Option ℝ)) (spec : IndSpec) :
    dirSeries xs (withDirection spec "lower_is_worse") =
      (transform_series xs (spec.transform.getD "level")).map (Option.map Neg.neg) := by
  have h : dirSeries xs (withDirection spec "lower_is_worse") =
      (transform_series xs (spec.transform.getD "level")).map
        (Option.map (fun v => -1 * v)) := rfl
  rw [h, negmul_eq]

/-- C3: for every input series and every indicator spec with a
nonnegative configured clip (the data model requires `clip > 0`), the
scores computed under `direction = "higher_is_worse"` and under
`direction = "lower_is_worse"` (all other fields identical) are mirror
images around 50: wherever both are defined, they sum to exactly 100. -/
theorem C3_direction_mirror (xs : List (Option ℝ)) (spec : IndSpec)
    (hclip : 0 ≤ (spec.normalise.getD defaultNorm).clip.getD 3) (i : ℕ) (a b : ℝ)
    (ha : (compute_indicator_score xs (withDirection spec "higher_is_worse")).get? i =
      some (some a))
    (hb : (compute_indicator_score xs (withDirection spec "lower_is_worse")).get? i =
      some (some b)) :
    a + b = 100 := by
  have hmirror : compute_indicator_score xs (withDirection spec "lower_is_worse") =
      (compute_indicator_score xs (withDirection spec "higher_is_worse")).map
        (Option.map (fun v => 100 - v)) := by
    rw [compute_indicator_score, compute_indicator_score, dirSeries_higher, dirSeries_lower]
    have hnorm : (withDirection spec "lower_is_worse").normalise =
        (withDirection spec "higher_is_worse").normalise := rfl
    rw [hnorm]
    by_cases hm : ((withDirection spec "higher_is_worse").normalise.getD defaultNorm).method =
        some "zscore"
    · simp only [if_pos hm]
      exact zscore_normalise_neg _ _ _ _ hclip
    · simp only [if_neg hm]
      exact minmax_normalise_neg _ _
  rw [hmirror] at hb
  rw [List.get?_eq_getElem?] at ha hb
  rw [List.getElem?_map, ha] at hb
  simp only [Option.map_some', Option.some.injEq] at hb
  rw [← hb]
  ring

/-- Witness for C3: on the series `1..7` with the default spec, month 6
scores 76.25 under `higher_is_worse` and 23.75 under `lower_is_worse`,
and the two sum to 100. -/
theorem C3_direction_mirror_witness :
    (compute_indicator_score xs7 (withDirection spec3 "higher_is_worse")).get? 6 =
      some (some (305 / 4)) ∧
    (compute_indicator_score xs7 (withDirection spec3 "lower_is_worse")).get? 6 =
      some (some (95 / 4)) ∧
    (305 / 4 : ℝ) + 95 / 4 = 100 := by
  have hwin : winObs xs7 12 6 = [1, 2, 3, 4, 5, 6, 7] := rfl
  have hmean : listMean [(1 : ℝ), 2, 3, 4, 5, 6, 7] = 4 := by norm_num [listMean]
  have hvar : listPopVar [(1 : ℝ), 2, 3, 4, 5, 6, 7] = 4 := by
    norm_num [listPopVar, hmean]
  have hstd : listPopStd [(1 : ℝ), 2, 3, 4, 5, 6, 7] = 2 := by
    rw [listPopStd, hvar, show (4 : ℝ) = 2 ^ 2 by norm_num,
      Real.sqrt_sq (by norm_num : (0 : ℝ) ≤ 2)]
  have h6 : (6 : ℕ) < xs7.length := by norm_num [xs7]
  have hH0 : (zscore_normalise xs7 12 3 2).get? 6 = some (some (305 / 4)) := by
    rw [zscore_normalise, range_map_get _ _ _ h6]
    have hg : xs7.getD 6 none = some 7 := rfl
    simp only [zscoreAt, hg, hwin, hstd, hmean]
    norm_num [min_def, max_def]
  have h1 : compute_indicator_score xs7 (withDirection spec3 "higher_is_worse") =
      zscore_normalise xs7 12 3 2 := rfl
  have h2 : compute_indicator_score xs7 (withDirection spec3 "lower_is_worse") =
      zscore_normalise (xs7.map (Option.map (fun v => -1 * v))) 12 3 2 := rfl
  have hH : (compute_indicator_score xs7 (withDirection spec3 "higher_is_worse")).get? 6 =
      some (some (305 / 4)) := by rw [h1]; exact hH0
  have hL : (compute_indicator_score xs7 (withDirection spec3 "lower_is_worse")).get? 6 =
      some (some (95 / 4)) := by
    rw [h2, negmul_eq, zscore_normalise_neg xs7 12 3 2 (by norm_num : (0 : ℝ) ≤ 3)]
    rw [List.get?_eq_getElem?, List.getElem?_map]
    rw [List.get?_eq_getElem?] at hH0
    rw [hH0]
    norm_num [Option.map_some']
  exact ⟨hH, hL,
    C3_direction_mirror xs7 spec3 (by norm_num [spec3, defaultNorm]) 6 (305 / 4) (95 / 4) hH hL⟩

/-! ### C6: removing a section is equivalent to making it missing -/

theorem sum_nonneg_all_zero (l : List ℝ) (h : ∀ x ∈ l, 0 ≤ x) (hz : l.sum = 0) :
    ∀ x ∈ l, x = 0 := by
  induction l with
  | nil => intro x hx; simp at hx
  | cons y t ih =>
    have hy : 0 ≤ y := h y (List.mem_cons_self _ _)
    have ht : 0 ≤ t.sum := List.sum_nonneg (fun x hx => h x (List.mem_cons_of_mem _ hx))
    rw [List.sum_cons] at hz
    have hy0 : y = 0 := by linarith
    have ht0 : t.sum = 0 := by linarith
    intro x hx
    rcases List.mem_cons.mp hx with h1 | h2
    · rw [h1, hy0]
    · exact ih (fun z hz => h z (List.mem_cons_of_mem _ hz)) ht0 x h2

theorem sum_snd_scale (l : List (ℝ × ℝ)) (c : ℝ) :
    ((l.map (fun q => (q.1, q.2 * c))).map Prod.snd).sum = (l.map Prod.snd).sum * c := by
  induction l with
  | nil => simp
  | cons q t ih =>
    simp only [List.map_cons, List.sum_cons, ih]
    ring

theorem sum_fst_scale (l : List (ℝ × ℝ)) (c : ℝ) :
    ((l.map (fun q => (q.1, q.2 * c))).map Prod.fst).sum = (l.map Prod.fst).sum := by
  induction l with
  | nil => simp
  | cons q t ih => simp only [List.map_cons, List.sum_cons, ih]

theorem sum_prod_scale (l : List (ℝ × ℝ)) (c : ℝ) :
    ((l.map (fun q => (q.1, q.2 * c))).map (fun p => p.1 * p.2)).sum =
      (l.map (fun p => p.1 * p.2)).sum * c := by
  induction l with
  | nil => simp
  | cons q t ih =>
    simp only [List.map_cons, List.sum_cons, ih]
    ring

theorem sum_snd_const (l : List (ℝ × ℝ)) (c : ℝ) (h : ∀ q ∈ l, q.2 = c) :
    (l.map Prod.snd).sum = c * l.length := by
  induction l with
  | nil => simp
  | cons q t ih =>
    simp only [List.map_cons, List.sum_cons, List.length_cons]
    rw [h q (List.mem_cons_self _ _), ih (fun z hz => h z (List.mem_cons_of_mem _ hz))]
    push_cast
    ring

theorem sum_prod_const (l : List (ℝ × ℝ)) (c : ℝ) (h : ∀ q ∈ l, q.2 = c) :
    (l.map (fun p => p.1 * p.2)).sum = (l.map Prod.fst).sum * c := by
  induction l with
  | nil => simp
  | cons q t ih =>
    simp only [List.map_cons, List.sum_cons]
    rw [h q (List.mem_cons_self _ _), ih (fun z hz => h z (List.mem_cons_of_mem _ hz))]
    ring

theorem wmrP_scale (l : List (ℝ × ℝ)) (c : ℝ) (hc : c ≠ 0) :
    wmrP (l.map (fun q => (q.1, q.2 * c))) = wmrP l := by
  cases l with
  | nil => rfl
  | cons q t =>
    rw [wmrP, wmrP]
    simp only [List.map_cons, List.isEmpty_cons, Bool.false_eq_true, if_false]
    have hsum := sum_snd_scale (q :: t) c
    simp only [List.map_cons] at hsum
    rw [hsum]
    by_cases hz : ((q :: t).map Prod.snd).sum = 0
    · simp only [List.map_cons] at hz
      rw [hz, zero_mul, if_pos rfl, if_pos rfl]
      have hfst := sum_fst_scale (q :: t) c
      simp only [List.map_cons] at hfst
      rw [hfst]
      simp
    · simp only [List.map_cons] at hz
      rw [if_neg (mul_ne_zero hz hc), if_neg hz]
      have hprod := sum_prod_scale (q :: t) c
      simp only [List.map_cons] at hprod
      rw [hprod, mul_div_mul_right _ _ hc]

theorem wmrP_mean_form (l : List (ℝ × ℝ)) (c : ℝ) (h : ∀ q ∈ l, q.2 = c) :
    wmrP l = if l.map Prod.fst = [] then none
      else some ((l.map Prod.fst).sum / (l.map Prod.fst).length) := by
  cases l with
  | nil => rfl
  | cons q t =>
    rw [wmrP]
    simp only [List.map_cons, List.isEmpty_cons, Bool.false_eq_true, if_false,
      List.cons_ne_nil, if_neg (List.cons_ne_nil _ _)]
    have hsum := sum_snd_const (q :: t) c h
    simp only [List.map_cons] at hsum ⊢
    by_cases hc : c = 0
    · have hz : (q.2 :: t.map Prod.snd).sum = 0 := by
        rw [hsum, hc, zero_mul]
      rw [if_pos hz]
      simp
    · have hlen : ((q :: t).length : ℝ) ≠ 0 := by
        simp only [List.length_cons]
        push_cast
        positivity
      have hz : (q.2 :: t.map Prod.snd).sum ≠ 0 := by
        rw [hsum]
        exact mul_ne_zero hc hlen
      rw [if_neg hz]
      have hprod := sum_prod_const (q :: t) c h
      simp only [List.map_cons] at hprod
      rw [hprod, hsum, mul_comm c ((q :: t).length : ℝ), mul_div_mul_right _ _ hc]
      simp

theorem filterMap_scale (secs : List (ℝ × Option ℝ)) (c : ℝ) :
    secs.filterMap (fun p => p.2.map (fun v => (v, p.1 * c))) =
      (secs.filterMap (fun p => p.2.map (fun v => (v, p.1)))).map
        (fun q => (q.1, q.2 * c)) := by
  induction secs with
  | nil => rfl
  | cons p t ih => cases hp : p.2 <;> simp [hp, ih]

theorem filterMap_const_weight (secs : List (ℝ × Option ℝ)) (c : ℝ) :
    secs.filterMap (fun p => p.2.map (fun v => (v, c))) =
      (secs.filterMap (fun p => p.2)).map (fun v => (v, c)) := by
  induction secs with
  | nil => rfl
  | cons p t ih => cases hp : p.2 <;> simp [hp, ih]

theorem filterMap_base_fst (secs : List (ℝ × Option ℝ)) :
    (secs.filterMap (fun p => p.2.map (fun v => (v, p.1)))).map Prod.fst =
      secs.filterMap (fun p => p.2) := by
  induction secs with
  | nil => rfl
  | cons p t ih => cases hp : p.2 <;> simp [hp, ih]

theorem definedPairs_pairform (secs : List (ℝ × Option ℝ)) (g : ℝ × Option ℝ → ℝ) :
    definedPairs (secs.map Prod.snd) (secs.map g) =
      secs.filterMap (fun p => p.2.map (fun v => (v, g p))) := by
  rw [definedPairs, List.zip_map', List.filterMap_map]
  rfl

theorem headline_row_canonical (secs : List (ℝ × Option ℝ)) (h : ∀ p ∈ secs, 0 ≤ p.1) :
    headline_row secs =
      wmrP (secs.filterMap (fun p => p.2.map (fun v => (v, p.1)))) := by
  rw [headline_row, weighted_mean_row, normWeights]
  by_cases hS : (secs.map Prod.fst).sum > 0
  · rw [if_pos hS, List.map_map]
    have hg : ((fun x => x / (secs.map Prod.fst).sum) ∘ Prod.fst) =
        fun p : ℝ × Option ℝ => p.1 * (1 / (secs.map Prod.fst).sum) := by
      funext p
      simp only [Function.comp_apply]
      ring
    rw [hg, definedPairs_pairform secs (fun p => p.1 * (1 / (secs.map Prod.fst).sum)),
      filterMap_scale, wmrP_scale _ _ (one_div_ne_zero (ne_of_gt hS))]
  · rw [if_neg hS, List.map_map]
    have hg : ((fun _ : ℝ => 1 / ((secs.map Prod.fst).length : ℝ)) ∘ Prod.fst) =
        fun _ : ℝ × Option ℝ => 1 / (secs.length : ℝ) := by
      funext p
      simp [List.length_map]
    rw [hg, definedPairs_pairform secs (fun _ => 1 / (secs.length : ℝ)),
      filterMap_const_weight]
    have hall0 : ∀ p ∈ secs, p.1 = 0 := by
      have hnn : 0 ≤ (secs.map Prod.fst).sum := by
        apply List.sum_nonneg
        intro x hx
        obtain ⟨p, hp, rfl⟩ := List.mem_map.mp hx
        exact h p hp
      have hS0 : (secs.map Prod.fst).sum = 0 := le_antisymm (not_lt.mp hS) hnn
      intro p hp
      exact sum_nonneg_all_zero _ (by
        intro x hx
        obtain ⟨q, hq, rfl⟩ := List.mem_map.mp hx
        exact h q hq) hS0 p.1 (List.mem_map_of_mem Prod.fst hp)
    have hL := wmrP_mean_form
      ((secs.filterMap (fun p => p.2)).map (fun v => (v, 1 / (secs.length : ℝ))))
      (1 / (secs.length : ℝ)) (by
        intro q hq
        obtain ⟨x, hx, rfl⟩ := List.mem_map.mp hq
        rfl)
    have hR := wmrP_mean_form (secs.filterMap (fun p => p.2.map (fun v => (v, p.1)))) 0 (by
      intro q hq
      obtain ⟨p, hp, hpq⟩ := List.mem_filterMap.mp hq
      obtain ⟨x, hx, rfl⟩ := Option.map_eq_some'.mp hpq
      exact hall0 p hp)
    rw [hL, hR, filterMap_base_fst]
    have e1 : ((secs.filterMap (fun p => p.2)).map
        (fun v => (v, 1 / (secs.length : ℝ)))).map Prod.fst =
        secs.filterMap (fun p => p.2) := by
      rw [List.map_map]
      have hcomp : (Prod.fst ∘ fun v : ℝ => (v, 1 / (secs.length : ℝ))) = id := rfl
      rw [hcomp, List.map_id]
    rw [e1]

/-- C6: for nonnegative section weights (the data model requires
`weight ≥ 0`), the per-month headline value computed after removing one
section entirely equals the value computed keeping all sections but
replacing the removed section's value by missing for that month —
"absent" and "missing this month" coincide under the per-month weight
renormalisation. -/
theorem C6_absent_equals_missing (l₁ l₂ : List (ℝ × Option ℝ)) (w : ℝ)
    (h1 : ∀ p ∈ l₁, 0 ≤ p.1) (h2 : ∀ p ∈ l₂, 0 ≤ p.1) (hw : 0 ≤ w) :
    headline_row (l₁ ++ l₂) = headline_row (l₁ ++ (w, none) :: l₂) := by
  have ha : ∀ p ∈ l₁ ++ l₂, 0 ≤ p.1 := by
    intro p hp
    rcases List.mem_append.mp hp with h | h
    · exact h1 p h
    · exact h2 p h
  have hb : ∀ p ∈ l₁ ++ (w, none) :: l₂, 0 ≤ p.1 := by
    intro p hp
    rcases List.mem_append.mp hp with h | h
    · exact h1 p h
    · rcases List.mem_cons.mp h with h | h
      · rw [h]; exact hw
      · exact h2 p h
  rw [headline_row_canonical _ ha, headline_row_canonical _ hb]
  congr 1
  rw [List.filterMap_append, List.filterMap_append, List.filterMap_cons]
  simp

/-- Witness for C6: removing the weight-5 section from
`[(2, 60), (3, 80)]` and keeping it with a missing value both give a
headline of 72. -/
theorem C6_absent_equals_missing_witness :
    headline_row [(2, some 60), (3, some 80)] = some 72 ∧
    headline_row [(2, some 60), (5, none), (3, some 80)] = some 72 := by
  have habsent : headline_row [((2 : ℝ), some (60 : ℝ)), (3, some 80)] = some 72 := by
    rw [headline_row, normWeights, weighted_mean_row]
    norm_num [definedPairs, wmrP, List.filterMap_cons]
  have heq := C6_absent_equals_missing [((2 : ℝ), some (60 : ℝ))] [((3 : ℝ), some (80 : ℝ))]
    5 (by intro p hp; simp at hp; rw [hp]; norm_num)
    (by intro p hp; simp at hp; rw [hp]; norm_num) (by norm_num)
  simp only [List.append_eq, List.cons_append, List.nil_append] at heq
  exact ⟨habsent, by rw [← heq]; exact habsent⟩

/-! ### C8: momentum labelling uses an OR of z-score and slope -/

theorem ogeB_iff (a : Option ℝ) (c : ℝ) : ogeB a c = true ↔ ∃ x, a = some x ∧ c ≤ x := by
  cases a with
  | none => simp [ogeB]
  | some x => by_cases h : c ≤ x <;> simp [ogeB, h]

theorem ogtB_iff (a : Option ℝ) (c : ℝ) : ogtB a c = true ↔ ∃ x, a = some x ∧ c < x := by
  cases a with
  | none => simp [ogtB]
  | some x => by_cases h : c < x <;> simp [ogtB, h]

theorem oleB_iff (a : Option ℝ) (c : ℝ) : oleB a c = true ↔ ∃ x, a = some x ∧ x ≤ c := by
  cases a with
  | none => simp [oleB]
  | some x => by_cases h : x ≤ c <;> simp [oleB, h]

theorem oltB_iff (a : Option ℝ) (c : ℝ) : oltB a c = true ↔ ∃ x, a = some x ∧ x < c := by
  cases a with
  | none => simp [oltB]
  | some x => by_cases h : x < c <;> simp [oltB, h]

theorem worsening_bool_iff (xs : List (Option ℝ)) :
    (ogeB (momentum_z_last xs) (1 / 2) || ogtB (momentum_slope xs) (1 / 2)) = true ↔
      worseningSignal xs := by
  rw [Bool.or_eq_true, ogeB_iff, ogtB_iff, worseningSignal]

theorem easing_bool_iff (xs : List (Option ℝ)) :
    (oleB (momentum_z_last xs) (-(1 / 2)) || oltB (momentum_slope xs) (-(1 / 2))) = true ↔
      easingSignal xs := by
  rw [Bool.or_eq_true, oleB_iff, oltB_iff, easingSignal]

/-- C8 amended: `momentum_label` returns `"Unknown"` exactly when the
series has no defined value; otherwise it returns `"Worsening"` exactly
when the z-score is `>= 0.5` OR the slope is `> 0.5` (so a large
positive slope overrides even a conclusive easing z-score — there is no
z-score priority, and the slope threshold is strict); `"Easing"` exactly
when neither fires and the z-score is `<= -0.5` or the slope is
`< -0.5`; and `"Stable"` otherwise. -/
theorem C8_amended (xs : List (Option ℝ)) :
    (momentum_label xs = "Unknown" ↔ xs.filterMap id = []) ∧
    (momentum_label xs = "Worsening" ↔ xs.filterMap id ≠ [] ∧ worseningSignal xs) ∧
    (momentum_label xs = "Easing" ↔
      xs.filterMap id ≠ [] ∧ ¬worseningSignal xs ∧ easingSignal xs) ∧
    (momentum_label xs = "Stable" ↔
      xs.filterMap id ≠ [] ∧ ¬worseningSignal xs ∧ ¬easingSignal xs) := by
  rw [momentum_label]
  by_cases he : (xs.filterMap id).isEmpty
  · rw [if_pos he]
    have hnil : xs.filterMap id = [] := List.isEmpty_iff.mp he
    refine ⟨?_, ?_, ?_, ?_⟩ <;> simp [hnil]
  · rw [if_neg he]
    have hnil : xs.filterMap id ≠ [] := by
      intro h
      exact he (List.isEmpty_iff.mpr h)
    by_cases h1 : (ogeB (momentum_z_last xs) (1 / 2) || ogtB (momentum_slope xs) (1 / 2)) = true
    · rw [if_pos h1]
      have hW : worseningSignal xs := (worsening_bool_iff xs).mp h1
      refine ⟨?_, ?_, ?_, ?_⟩ <;> simp [hnil, hW]
    · rw [if_neg h1]
      have hW : ¬worseningSignal xs := fun h => h1 ((worsening_bool_iff xs).mpr h)
      by_cases h2 : (oleB (momentum_z_last xs) (-(1 / 2)) ||
          oltB (momentum_slope xs) (-(1 / 2))) = true
      · rw [if_pos h2]
        have hE : easingSignal xs := (easing_bool_iff xs).mp h2
        refine ⟨?_, ?_, ?_, ?_⟩ <;> simp [hnil, hW, hE]
      · rw [if_neg h2]
        have hE : ¬easingSignal xs := fun h => h2 ((easing_bool_iff xs).mpr h)
        refine ⟨?_, ?_, ?_, ?_⟩ <;> simp [hnil, hW, hE]

/-- Witness for C8 amended at a concrete series: three flat months of 10
give slope 0 and an undefined z-score (zero rolling std), hence
`"Stable"`; and the empty series gives `"Unknown"`. -/
theorem C8_amended_witness :
    momentum_label [some 10, some 10, some 10, some 10, some 10, some 10] = "Stable" ∧
    momentum_label [] = "Unknown" := by
  constructor
  · apply (C8_amended [some 10, some 10, some 10, some 10, some 10, some 10]).2.2.2.mpr
    have hstd : listPopStd [(10 : ℝ), 10, 10, 10, 10, 10] = 0 := by
      norm_num [listPopStd, listPopVar, listMean]
    have hzif : momentum_z_last [some 10, some 10, some 10, some 10, some 10, some 10] =
        if listPopStd [(10 : ℝ), 10, 10, 10, 10, 10] = 0 then none
        else some ((10 - listMean [(10 : ℝ), 10, 10, 10, 10, 10]) /
          listPopStd [(10 : ℝ), 10, 10, 10, 10, 10]) := rfl
    have hz : momentum_z_last [some 10, some 10, some 10, some 10, some 10, some 10] =
        none := by
      rw [hzif, if_pos hstd]
    have hsl : momentum_slope [some 10, some 10, some 10, some 10, some 10, some 10] =
        some (10 - 10) := rfl
    refine ⟨by simp, ?_, ?_⟩
    · intro h
      rcases h with ⟨z, hz', _⟩ | ⟨sl, hsl', hlt⟩
      · rw [hz] at hz'
        exact Option.noConfusion hz'
      · rw [hsl] at hsl'
        have : sl = 10 - 10 := (Option.some.injEq _ _).mp hsl'.symm
        rw [this] at hlt
        norm_num at hlt
    · intro h
      rcases h with ⟨z, hz', _⟩ | ⟨sl, hsl', hlt⟩
      · rw [hz] at hz'
        exact Option.noConfusion hz'
      · rw [hsl] at hsl'
        have : sl = 10 - 10 := (Option.some.injEq _ _).mp hsl'.symm
        rw [this] at hlt
        norm_num at hlt
  · exact (C8_amended []).1.mpr rfl

/-- C8 counterexample: on nine 10s followed by `0, 0, 1` the latest
12-month z-score is defined and `<= -0.5` (conclusively easing under
the claimed z-score priority), yet the source returns `"Worsening"`
because the 3-month slope `1 - 0 = 1 > 0.5` fires in the same OR as the
z-score test. -/
theorem C8_counterexample :
    momentum_label ex8 = "Worsening" ∧ (momentum_z_last ex8).isSome = true ∧
      (momentum_z_last ex8).getD 0 ≤ -(1 / 2) := by
  have hslope : momentum_slope ex8 = some (1 - 0) := rfl
  have hogt : ogtB (momentum_slope ex8) (1 / 2) = true := by
    rw [hslope, ogtB]
    norm_num
  have hwin : winObs ex8 12 11 = [10, 10, 10, 10, 10, 10, 10, 10, 10, 0, 0, 1] := rfl
  have hmean : listMean [(10 : ℝ), 10, 10, 10, 10, 10, 10, 10, 10, 0, 0, 1] = 91 / 12 := by
    norm_num [listMean]
  have hvar : listPopVar [(10 : ℝ), 10, 10, 10, 10, 10, 10, 10, 10, 0, 0, 1] = 2531 / 144 := by
    norm_num [listPopVar, hmean]
  have hstdpos : 0 < listPopStd [(10 : ℝ), 10, 10, 10, 10, 10, 10, 10, 10, 0, 0, 1] := by
    rw [listPopStd]
    apply Real.sqrt_pos.mpr
    rw [hvar]
    norm_num
  have hstdle : listPopStd [(10 : ℝ), 10, 10, 10, 10, 10, 10, 10, 10, 0, 0, 1] ≤ 79 / 6 := by
    rw [listPopStd, hvar]
    calc Real.sqrt (2531 / 144) ≤ Real.sqrt ((79 / 6) ^ 2) := by
          apply Real.sqrt_le_sqrt
          norm_num
      _ = 79 / 6 := Real.sqrt_sq (by norm_num)
  have hzif : momentum_z_last ex8 =
      if listPopStd [(10 : ℝ), 10, 10, 10, 10, 10, 10, 10, 10, 0, 0, 1] = 0 then none
      else some ((1 - listMean [(10 : ℝ), 10, 10, 10, 10, 10, 10, 10, 10, 0, 0, 1]) /
        listPopStd [(10 : ℝ), 10, 10, 10, 10, 10, 10, 10, 10, 0, 0, 1]) := rfl
  have hzval : momentum_z_last ex8 =
      some ((1 - listMean [(10 : ℝ), 10, 10, 10, 10, 10, 10, 10, 10, 0, 0, 1]) /
        listPopStd [(10 : ℝ), 10, 10, 10, 10, 10, 10, 10, 10, 0, 0, 1]) := by
    rw [hzif, if_neg (ne_of_gt hstdpos)]
  have hlif : momentum_label ex8 =
      if (ogeB (momentum_z_last ex8) (1 / 2) || ogtB (momentum_slope ex8) (1 / 2)) = true
      then "Worsening"
      else if (oleB (momentum_z_last ex8) (-(1 / 2)) ||
          oltB (momentum_slope ex8) (-(1 / 2))) = true
        then "Easing" else "Stable" := rfl
  have hlabel : momentum_label ex8 = "Worsening" := by
    rw [hlif, hogt, Bool.or_true, if_pos rfl]
  refine ⟨hlabel, ?_, ?_⟩
  · rw [hzval]
    rfl
  · rw [hzval, Option.getD_some, hmean, div_le_iff₀ hstdpos]
    nlinarith [hstdle, hstdpos]

/-! ### C7: when compute raises, and when it silently returns -/

theorem sectionScore_eq_none_iff (rows : List Row) (grid : List ℕ) (sec : SectionSpec) :
    sectionScore rows grid sec = none ↔ secIndicatorScores rows grid sec = [] := by
  rw [sectionScore]
  by_cases h : (secIndicatorScores rows grid sec).isEmpty
  · simp only [if_pos h, true_iff]
    exact List.isEmpty_iff.mp h
  · rw [if_neg h]
    constructor
    · intro hh
      exact absurd hh (Option.some_ne_none _)
    · intro hh
      exact absurd (List.isEmpty_iff.mpr hh) h

theorem secIndicatorScores_eq_nil_iff (rows : List Row) (grid : List ℕ) (sec : SectionSpec) :
    secIndicatorScores rows grid sec = [] ↔
      ∀ ind ∈ sec.indicators, ∀ x ∈ seriesOf rows ind.id grid, x = none := by
  rw [secIndicatorScores, List.filterMap_eq_nil_iff]
  constructor
  · intro h ind hind x hx
    have hi := h ind hind
    by_cases hc : (seriesOf rows ind.id grid).all (fun v => v.isNone)
    · exact Option.isNone_iff_eq_none.mp (List.all_eq_true.mp hc x hx)
    · rw [if_neg hc] at hi
      exact absurd hi (Option.some_ne_none _)
  · intro h ind hind
    have hc : (seriesOf rows ind.id grid).all (fun v => v.isNone) = true := by
      rw [List.all_eq_true]
      intro x hx
      rw [h ind hind x hx]
      rfl
    simp only [if_pos hc]

/-- C7 amended: `MoMEngine.compute` raises its descriptive
aggregation error if and only if the input is nonempty, no configured
indicator id matches rows with a duplicated date (those two situations
crash earlier in pandas, with different errors), and no configured
indicator id has any non-missing raw observation — the error message
makes the actual criterion explicit: "no data matched".  Whenever some
indicator has data (on such a well-formed input, with a valid smoothing
span), compute returns its three-output result normally, even if every
computed score value is missing. -/
theorem C7_amended (cfg : Config) (rows : List Row) :
    compute cfg rows =
      Except.error "No section scores computed (no data matched config indicator ids)." ↔
      rows ≠ [] ∧
      (∀ sec ∈ cfg.sections, ∀ ind ∈ sec.indicators,
        ((rows.filter (fun r => r.sid == ind.id)).map Row.date).Nodup) ∧
      (∀ sec ∈ cfg.sections, ∀ ind ∈ sec.indicators,
        ∀ x ∈ seriesOf rows ind.id (gridOf rows), x = none) := by
  by_cases hemp : rows.isEmpty
  · rw [compute, if_pos hemp]
    constructor
    · intro h
      exact absurd h (by simp)
    · intro h
      exact absurd (List.isEmpty_iff.mp hemp) h.1
  · by_cases hdup : ∃ sec ∈ cfg.sections, ∃ ind ∈ sec.indicators,
        ¬((rows.filter (fun r => r.sid == ind.id)).map Row.date).Nodup
    · rw [compute, if_neg hemp, if_pos hdup]
      constructor
      · intro h
        exact absurd h (by simp)
      · intro h
        obtain ⟨sec, hsec, ind, hind, hbad⟩ := hdup
        exact absurd (h.2.1 sec hsec ind hind) hbad
    · rw [compute, if_neg hemp, if_neg hdup]
      have hne : rows ≠ [] := fun h => hemp (List.isEmpty_iff.mpr h)
      have hnd : ∀ sec ∈ cfg.sections, ∀ ind ∈ sec.indicators,
          ((rows.filter (fun r => r.sid == ind.id)).map Row.date).Nodup := by
        intro sec hsec ind hind
        by_contra hbad
        exact hdup ⟨sec, hsec, ind, hind, hbad⟩
      have hsecs_iff : (cfg.sections.filterMap (fun sec =>
          (sectionScore rows (gridOf rows) sec).map
            (fun s => (sec.id, sec.weight, s)))).isEmpty = true ↔
          ∀ sec ∈ cfg.sections, ∀ ind ∈ sec.indicators,
            ∀ x ∈ seriesOf rows ind.id (gridOf rows), x = none := by
        rw [List.isEmpty_iff, List.filterMap_eq_nil_iff]
        apply forall_congr'
        intro sec
        apply imp_congr_right
        intro hsec
        rw [Option.map_eq_none', sectionScore_eq_none_iff, secIndicatorScores_eq_nil_iff]
      simp only []
      by_cases h3 : (cfg.sections.filterMap (fun sec =>
          (sectionScore rows (gridOf rows) sec).map
            (fun s => (sec.id, sec.weight, s)))).isEmpty
      · rw [if_pos h3]
        constructor
        · intro _
          exact ⟨hne, hnd, hsecs_iff.mp h3⟩
        · intro _
          rfl
      · rw [if_neg h3]
        constructor
        · intro h
          exact absurd h (by simp)
        · intro h
          exact absurd (hsecs_iff.mpr h.2.2) h3

/-- Concrete evaluation of `compute` on `cfg7`/`rows7`: three
observations are fewer than the six the zscore window requires, so
every score entry is missing, yet the run succeeds. -/
theorem compute_cfg7_rows7 :
    compute cfg7 rows7 =
      Except.ok ([("s1", [none, none, none])], [none, none, none], [none, none, none]) := by
  have hgrid : gridOf rows7 = [0, 1, 2] := rfl
  have hscored : secIndicatorScores rows7 [0, 1, 2] sec7 = [([none, none, none], 1)] := rfl
  have hW : normWeights [(1 : ℝ)] = [1] := by
    rw [normWeights]
    norm_num
  have hsec : sectionScore rows7 [0, 1, 2] sec7 = some [none, none, none] := by
    rw [sectionScore, hscored]
    norm_num [hW, List.range_succ, weighted_mean_row, definedPairs, wmrP]
  have hsecs : cfg7.sections.filterMap (fun sec => (sectionScore rows7 (gridOf rows7) sec).map
      (fun s => (sec.id, sec.weight, s))) = [("s1", 1, [none, none, none])] := by
    rw [show cfg7.sections = [sec7] from rfl]
    rw [List.filterMap_cons]
    rw [hgrid, hsec]
    rfl
  rw [compute]
  rw [if_neg (by decide : ¬(rows7.isEmpty = true))]
  rw [if_neg (by decide : ¬∃ sec ∈ cfg7.sections, ∃ ind ∈ sec.indicators,
    ¬((rows7.filter (fun r => r.sid == ind.id)).map Row.date).Nodup)]
  simp only [hsecs]
  norm_num [hgrid, hW, List.range_succ, weighted_mean_row, definedPairs, wmrP, ewma, ewmaGo]

/-- Witness for C7 amended: a nonempty, duplicate-free input whose only
row for the configured indicator carries a missing value — the indicator
is skipped as all-`NaN`, no section produces a score, and `compute`
raises the descriptive error. -/
theorem C7_amended_witness :
    compute cfg7 rows7b =
      Except.error "No section scores computed (no data matched config indicator ids)." :=
  (C7_amended cfg7 rows7b).mpr (by
    refine ⟨by simp [rows7b], ?_, ?_⟩
    · intro sec hsec ind hind
      rw [show cfg7.sections = [sec7] from rfl] at hsec
      rw [List.mem_singleton.mp hsec] at hind
      rw [show sec7.indicators = [ind7] from rfl] at hind
      rw [List.mem_singleton.mp hind]
      rw [show (rows7b.filter (fun r => r.sid == ind7.id)).map Row.date = [0] from rfl]
      exact List.nodup_singleton 0
    · intro sec hsec ind hind x hx
      rw [show cfg7.sections = [sec7] from rfl] at hsec
      rw [List.mem_singleton.mp hsec] at hind
      rw [show sec7.indicators = [ind7] from rfl] at hind
      rw [List.mem_singleton.mp hind] at hx
      rw [show seriesOf rows7b ind7.id (gridOf rows7b) = [none] from rfl] at hx
      simpa using hx)

/-- C7 counterexample: with one indicator holding only three
observations (fewer than the six the zscore window requires), zero score
values are produced anywhere in the run, yet `compute` does not raise —
it returns a fabricated all-missing result (section scores, headline and
smoothed headline all entirely missing), refuting the claimed
"raises iff zero sections produce any indicator score". -/
theorem C7_counterexample :
    compute cfg7 rows7 =
      Except.ok ([("s1", [none, none, none])], [none, none, none], [none, none, none]) :=
  compute_cfg7_rows7

/-! ### C9: outputs live in [0,100] on the full calendar grid -/

theorem getD_prop (P : Option ℝ → Prop) (l : List (Option ℝ)) (m : ℕ)
    (hP : ∀ o ∈ l, P o) (hnone : P none) : P (l.getD m none) := by
  induction l generalizing m with
  | nil => exact hnone
  | cons x t ih =>
    cases m with
    | zero => exact hP x (List.mem_cons_self _ _)
    | succ n => exact ih n (fun o ho => hP o (List.mem_cons_of_mem _ ho))

theorem clamp_bounds (e : ℝ) : 0 ≤ min 100 (max 0 e) ∧ min 100 (max 0 e) ≤ 100 :=
  ⟨le_min (by norm_num) (le_max_left 0 e), min_le_left _ _⟩

theorem zscoreAt_bounds (xs : List (Option ℝ)) (w mp : ℕ) (c s : ℝ) (i : ℕ) (v : ℝ)
    (h : zscoreAt xs w mp c s i = some v) : 0 ≤ v ∧ v ≤ 100 := by
  rw [zscoreAt] at h
  split at h
  · simp at h
  · simp only [] at h
    split at h
    · simp at h
    · split at h
      · simp at h
      · have hv := (Option.some.injEq _ _).mp h
        rw [← hv]
        exact clamp_bounds _

theorem minmaxAt_bounds (xs : List (Option ℝ)) (w mp : ℕ) (i : ℕ) (v : ℝ)
    (h : minmaxAt xs w mp i = some v) : 0 ≤ v ∧ v ≤ 100 := by
  rw [minmaxAt] at h
  split at h
  · simp at h
  · simp only [] at h
    split at h
    · simp at h
    · split at h
      · simp at h
      · have hv := (Option.some.injEq _ _).mp h
        rw [← hv]
        exact clamp_bounds _

theorem compute_indicator_score_bounds (xs : List (Option ℝ)) (spec : IndSpec) :
    ∀ o ∈ compute_indicator_score xs spec, ∀ v : ℝ, o = some v → 0 ≤ v ∧ v ≤ 100 := by
  intro o ho v hv
  subst hv
  rw [compute_indicator_score] at ho
  by_cases hm : (spec.normalise.getD defaultNorm).method = some "zscore"
  · rw [if_pos hm, zscore_normalise] at ho
    obtain ⟨i, hi, hoi⟩ := List.mem_map.mp ho
    exact zscoreAt_bounds _ _ _ _ _ _ _ hoi
  · rw [if_neg hm, minmax_normalise] at ho
    obtain ⟨i, hi, hoi⟩ := List.mem_map.mp ho
    exact minmaxAt_bounds _ _ _ _ _ hoi

theorem definedPairs_mem (vals : List (Option ℝ)) (ws : List ℝ) (q : ℝ × ℝ)
    (hq : q ∈ definedPairs vals ws) : some q.1 ∈ vals ∧ q.2 ∈ ws := by
  rw [definedPairs] at hq
  obtain ⟨p, hp, hpq⟩ := List.mem_filterMap.mp hq
  obtain ⟨v, hv, hq'⟩ := Option.map_eq_some'.mp hpq
  obtain ⟨h1, h2⟩ := List.of_mem_zip hp
  rw [← hq']
  exact ⟨hv ▸ h1, h2⟩

theorem wmrP_bounds (l : List (ℝ × ℝ)) (hv : ∀ q ∈ l, 0 ≤ q.1 ∧ q.1 ≤ 100)
    (hw : ∀ q ∈ l, 0 ≤ q.2) (r : ℝ) (h : wmrP l = some r) : 0 ≤ r ∧ r ≤ 100 := by
  rw [wmrP] at h
  by_cases he : l.isEmpty
  · rw [if_pos he] at h
    exact absurd h (by simp)
  · rw [if_neg he] at h
    have hlen : 0 < l.length := by
      cases l with
      | nil => exact absurd rfl he
      | cons a t => simp
    have hlenR : (0 : ℝ) < l.length := by exact_mod_cast hlen
    have hfst0 : 0 ≤ (l.map Prod.fst).sum := by
      apply List.sum_nonneg
      intro x hx
      obtain ⟨q, hq, rfl⟩ := List.mem_map.mp hx
      exact (hv q hq).1
    have hfst100 : (l.map Prod.fst).sum ≤ 100 * l.length := by
      calc (l.map Prod.fst).sum ≤ (l.map (fun _ => (100 : ℝ))).sum := by
            apply List.sum_le_sum
            intro q hq
            exact (hv q hq).2
        _ = 100 * l.length := by
            rw [List.map_const', List.sum_replicate, nsmul_eq_mul]
            ring
    by_cases hz : (l.map Prod.snd).sum = 0
    · rw [if_pos hz] at h
      have hr := (Option.some.injEq _ _).mp h
      rw [← hr]
      constructor
      · exact div_nonneg hfst0 (le_of_lt hlenR)
      · rw [div_le_iff₀ hlenR]
        linarith
    · rw [if_neg hz] at h
      have hr := (Option.some.injEq _ _).mp h
      have hsum0 : 0 ≤ (l.map Prod.snd).sum := by
        apply List.sum_nonneg
        intro x hx
        obtain ⟨q, hq, rfl⟩ := List.mem_map.mp hx
        exact hw q hq
      have hsumpos : 0 < (l.map Prod.snd).sum := lt_of_le_of_ne hsum0 (Ne.symm hz)
      have hnum0 : 0 ≤ (l.map (fun p => p.1 * p.2)).sum := by
        apply List.sum_nonneg
        intro x hx
        obtain ⟨q, hq, rfl⟩ := List.mem_map.mp hx
        exact mul_nonneg (hv q hq).1 (hw q hq)
      have hnum100 : (l.map (fun p => p.1 * p.2)).sum ≤ 100 * (l.map Prod.snd).sum := by
        calc (l.map (fun p => p.1 * p.2)).sum ≤ (l.map (fun p => 100 * p.2)).sum := by
              apply List.sum_le_sum
              intro q hq
              exact mul_le_mul_of_nonneg_right (hv q hq).2 (hw q hq)
          _ = 100 * (l.map Prod.snd).sum := List.sum_map_mul_left l Prod.snd 100
      rw [← hr]
      constructor
      · exact div_nonneg hnum0 (le_of_lt hsumpos)
      · rw [div_le_iff₀ hsumpos]
        linarith

theorem weighted_mean_row_bounds (vals : List (Option ℝ)) (ws : List ℝ)
    (hv : ∀ o ∈ vals, ∀ v : ℝ, o = some v → 0 ≤ v ∧ v ≤ 100)
    (hw : ∀ w ∈ ws, 0 ≤ w) (r : ℝ) (h : weighted_mean_row vals ws = some r) :
    0 ≤ r ∧ r ≤ 100 := by
  rw [weighted_mean_row] at h
  apply wmrP_bounds _ _ _ r h
  · intro q hq
    exact hv _ (definedPairs_mem vals ws q hq).1 q.1 rfl
  · intro q hq
    exact hw _ (definedPairs_mem vals ws q hq).2

theorem normWeights_nonneg (ws : List ℝ) (h : ∀ w ∈ ws, 0 ≤ w) :
    ∀ w ∈ normWeights ws, 0 ≤ w := by
  intro w hw
  rw [normWeights] at hw
  by_cases hs : ws.sum > 0
  · rw [if_pos hs] at hw
    obtain ⟨x, hx, rfl⟩ := List.mem_map.mp hw
    exact div_nonneg (h x hx) (le_of_lt hs)
  · rw [if_neg hs] at hw
    obtain ⟨x, hx, rfl⟩ := List.mem_map.mp hw
    positivity

theorem ewmaGo_length (a : ℝ) (xs : List (Option ℝ)) :
    ∀ (st : Option ℝ) (wt : ℝ), (ewmaGo a st wt xs).length = xs.length := by
  induction xs with
  | nil => intro st wt; cases st <;> rfl
  | cons x t ih =>
    intro st wt
    cases st with
    | none => cases x <;> simp [ewmaGo, ih]
    | some m => cases x <;> simp [ewmaGo, ih]

theorem ewmaGo_bounds (a : ℝ) (ha0 : 0 < a) (ha1 : a ≤ 1) (xs : List (Option ℝ)) :
    ∀ (st : Option ℝ) (wt : ℝ), 0 ≤ wt →
      (∀ m : ℝ, st = some m → 0 ≤ m ∧ m ≤ 100) →
      (∀ o ∈ xs, ∀ v : ℝ, o = some v → 0 ≤ v ∧ v ≤ 100) →
      ∀ o ∈ ewmaGo a st wt xs, ∀ v : ℝ, o = some v → 0 ≤ v ∧ v ≤ 100 := by
  induction xs with
  | nil =>
    intro st wt hwt hst hxs o ho
    cases st <;> simp [ewmaGo] at ho
  | cons x t ih =>
    intro st wt hwt hst hxs o ho
    have hxs' : ∀ o ∈ t, ∀ v : ℝ, o = some v → 0 ≤ v ∧ v ≤ 100 :=
      fun o ho v hv => hxs o (List.mem_cons_of_mem _ ho) v hv
    cases st with
    | none =>
      cases x with
      | none =>
        rw [show ewmaGo a none wt (none :: t) = none :: ewmaGo a none wt t from rfl] at ho
        rcases List.mem_cons.mp ho with h | h
        · intro v hv
          rw [h] at hv
          exact absurd hv (by simp)
        · exact ih none wt hwt hst hxs' o h
      | some y =>
        rw [show ewmaGo a none wt (some y :: t) = some y :: ewmaGo a (some y) 1 t from rfl] at ho
        have hy := hxs (some y) (List.mem_cons_self _ _) y rfl
        rcases List.mem_cons.mp ho with h | h
        · intro v hv
          rw [h] at hv
          have := (Option.some.injEq _ _).mp hv
          rw [← this]
          exact hy
        · exact ih (some y) 1 (by norm_num)
            (fun m hm => by rw [← (Option.some.injEq _ _).mp hm]; exact hy) hxs' o h
    | some m =>
      have hm := hst m rfl
      cases x with
      | none =>
        rw [show ewmaGo a (some m) wt (none :: t) =
          some m :: ewmaGo a (some m) (wt * (1 - a)) t from rfl] at ho
        rcases List.mem_cons.mp ho with h | h
        · intro v hv
          rw [h] at hv
          have := (Option.some.injEq _ _).mp hv
          rw [← this]
          exact hm
        · exact ih (some m) (wt * (1 - a)) (mul_nonneg hwt (by linarith))
            (fun z hz => by rw [← (Option.some.injEq _ _).mp hz]; exact hm) hxs' o h
      | some y =>
        have hy := hxs (some y) (List.mem_cons_self _ _) y rfl
        rw [show ewmaGo a (some m) wt (some y :: t) =
          some ((wt * (1 - a) * m + a * y) / (wt * (1 - a) + a)) ::
            ewmaGo a (some ((wt * (1 - a) * m + a * y) / (wt * (1 - a) + a))) 1 t
          from rfl] at ho
        have hwa : 0 ≤ wt * (1 - a) := mul_nonneg hwt (by linarith)
        have hden : 0 < wt * (1 - a) + a := by linarith
        have hnew : 0 ≤ (wt * (1 - a) * m + a * y) / (wt * (1 - a) + a) ∧
            (wt * (1 - a) * m + a * y) / (wt * (1 - a) + a) ≤ 100 := by
          constructor
          · apply div_nonneg _ (le_of_lt hden)
            have := mul_nonneg hwa hm.1
            nlinarith [hm.1, hy.1, ha0.le]
          · rw [div_le_iff₀ hden]
            nlinarith [hm.2, hy.2, hwa, ha0.le]
        rcases List.mem_cons.mp ho with h | h
        · intro v hv
          rw [h] at hv
          have := (Option.some.injEq _ _).mp hv
          rw [← this]
          exact hnew
        · exact ih _ 1 (by norm_num)
            (fun z hz => by rw [← (Option.some.injEq _ _).mp hz]; exact hnew) hxs' o h

theorem dirSeries_length (xs : List (Option ℝ)) (spec : IndSpec) :
    (dirSeries xs spec).length = xs.length := by
  rw [dirSeries]
  split_ifs <;> simp [transform_series_length]

theorem compute_indicator_score_length (xs : List (Option ℝ)) (spec : IndSpec) :
    (compute_indicator_score xs spec).length = xs.length := by
  rw [compute_indicator_score]
  split_ifs <;>
    simp [zscore_normalise, minmax_normalise, dirSeries_length]

theorem secIndicatorScores_mem (rows : List Row) (grid : List ℕ) (sec : SectionSpec)
    (p : List (Option ℝ) × ℝ) (hp : p ∈ secIndicatorScores rows grid sec) :
    ∃ ind ∈ sec.indicators,
      p.1 = compute_indicator_score (seriesOf rows ind.id grid) ind ∧
      p.2 = ind.section_weight.getD (1 / (sec.indicators.length : ℝ)) := by
  rw [secIndicatorScores] at hp
  obtain ⟨ind, hind, hmap⟩ := List.mem_filterMap.mp hp
  simp only [] at hmap
  refine ⟨ind, hind, ?_⟩
  by_cases hc : (seriesOf rows ind.id grid).all (fun v => v.isNone)
  · rw [if_pos hc] at hmap
    exact absurd hmap (by simp)
  · rw [if_neg hc] at hmap
    have := (Option.some.injEq _ _).mp hmap
    rw [← this]
    exact ⟨rfl, rfl⟩

theorem sectionScore_spec (rows : List Row) (grid : List ℕ) (sec : SectionSpec)
    (hind : ∀ ind ∈ sec.indicators, ∀ w : ℝ, ind.section_weight = some w → 0 ≤ w)
    (sl : List (Option ℝ)) (h : sectionScore rows grid sec = some sl) :
    sl.length = grid.length ∧ ∀ o ∈ sl, ∀ v : ℝ, o = some v → 0 ≤ v ∧ v ≤ 100 := by
  rw [sectionScore] at h
  simp only [] at h
  split at h
  · exact absurd h (by simp)
  · have hsl := (Option.some.injEq _ _).mp h
    rw [← hsl]
    constructor
    · simp
    · intro o ho v hv
      obtain ⟨m, hm, hom⟩ := List.mem_map.mp ho
      rw [hv] at hom
      apply weighted_mean_row_bounds _ _ ?_ ?_ v hom
      · intro oo hoo vv hvv
        obtain ⟨p, hp, hpo⟩ := List.mem_map.mp hoo
        rw [← hpo] at hvv
        obtain ⟨ind, hindmem, hp1, hp2⟩ := secIndicatorScores_mem rows grid sec p hp
        have hP := getD_prop (fun oo => ∀ vv : ℝ, oo = some vv → 0 ≤ vv ∧ vv ≤ 100)
          p.1 m ?_ ?_
        · exact hP vv hvv
        · rw [hp1]
          exact compute_indicator_score_bounds _ _
        · intro vv hvv
          exact absurd hvv (by simp)
      · apply normWeights_nonneg
        intro w hw
        obtain ⟨p, hp, hpw⟩ := List.mem_map.mp hw
        obtain ⟨ind, hindmem, hp1, hp2⟩ := secIndicatorScores_mem rows grid sec p hp
        rw [← hpw, hp2]
        cases hsw : ind.section_weight with
        | none =>
          rw [Option.getD_none]
          apply div_nonneg
          · norm_num
          · exact Nat.cast_nonneg _
        | some w' =>
          rw [Option.getD_some]
          exact hind ind hindmem w' hsw

/-- C9: whenever `compute` succeeds on a config obeying the data-model
invariants (nonnegative section and indicator weights, smoothing span at
least 1), every defined value in all three outputs — per-section scores,
raw headline, smoothed headline — lies in `[0, 100]`, all other entries
are explicitly missing (`none`), and all three outputs have exactly one
entry per month of the calendar grid spanning the input's min-to-max
date range. -/
theorem C9_outputs_bounded_and_aligned (cfg : Config) (rows : List Row)
    (out : List (String × List (Option ℝ)) × List (Option ℝ) × List (Option ℝ))
    (hwts : ∀ sec ∈ cfg.sections, 0 ≤ sec.weight ∧
      ∀ ind ∈ sec.indicators, ∀ w : ℝ, ind.section_weight = some w → 0 ≤ w)
    (hspan : 1 ≤ cfg.span_months.getD 3)
    (h : compute cfg rows = Except.ok out) :
    (∀ p ∈ out.1, p.2.length = (gridOf rows).length ∧
      ∀ o ∈ p.2, ∀ v : ℝ, o = some v → 0 ≤ v ∧ v ≤ 100) ∧
    (out.2.1.length = (gridOf rows).length ∧
      ∀ o ∈ out.2.1, ∀ v : ℝ, o = some v → 0 ≤ v ∧ v ≤ 100) ∧
    (out.2.2.length = (gridOf rows).length ∧
      ∀ o ∈ out.2.2, ∀ v : ℝ, o = some v → 0 ≤ v ∧ v ≤ 100) := by
  have hemp : ¬(rows.isEmpty = true) := by
    intro he
    rw [compute, if_pos he] at h
    exact absurd h (by simp)
  have hdup : ¬∃ sec ∈ cfg.sections, ∃ ind ∈ sec.indicators,
      ¬((rows.filter (fun r => r.sid == ind.id)).map Row.date).Nodup := by
    intro hd
    rw [compute, if_neg hemp, if_pos hd] at h
    exact absurd h (by simp)
  rw [compute, if_neg hemp, if_neg hdup] at h
  simp only [] at h
  split at h
  · exact absurd h (by simp)
  · injection h with h2
    subst h2
    have hsecmem : ∀ s ∈ cfg.sections.filterMap (fun sec =>
        (sectionScore rows (gridOf rows) sec).map (fun sl => (sec.id, sec.weight, sl))),
        ∃ sec ∈ cfg.sections,
          sectionScore rows (gridOf rows) sec = some s.2.2 ∧ s.2.1 = sec.weight := by
      intro s hs
      obtain ⟨sec, hsec, hmap⟩ := List.mem_filterMap.mp hs
      obtain ⟨sl, hsl, hseq⟩ := Option.map_eq_some'.mp hmap
      refine ⟨sec, hsec, ?_, ?_⟩
      · rw [← hseq]
        exact hsl
      · rw [← hseq]
    have hsecfacts : ∀ s ∈ cfg.sections.filterMap (fun sec =>
        (sectionScore rows (gridOf rows) sec).map (fun sl => (sec.id, sec.weight, sl))),
        s.2.2.length = (gridOf rows).length ∧
          ∀ o ∈ s.2.2, ∀ v : ℝ, o = some v → 0 ≤ v ∧ v ≤ 100 := by
      intro s hs
      obtain ⟨sec, hsec, hss, hwq⟩ := hsecmem s hs
      exact sectionScore_spec rows (gridOf rows) sec (hwts sec hsec).2 s.2.2 hss
    have hheadline : ∀ o ∈ (List.range (gridOf rows).length).map (fun m =>
        weighted_mean_row ((cfg.sections.filterMap (fun sec =>
          (sectionScore rows (gridOf rows) sec).map
            (fun s => (sec.id, sec.weight, s)))).map (fun s => s.2.2.getD m none))
          (normWeights ((cfg.sections.filterMap (fun sec =>
            (sectionScore rows (gridOf rows) sec).map
              (fun s => (sec.id, sec.weight, s)))).map (fun s => s.2.1)))),
        ∀ v : ℝ, o = some v → 0 ≤ v ∧ v ≤ 100 := by
      intro o ho v hv
      obtain ⟨m, hm, hom⟩ := List.mem_map.mp ho
      rw [hv] at hom
      apply weighted_mean_row_bounds _ _ ?_ ?_ v hom
      · intro oo hoo vv hvv
        obtain ⟨s, hs, hso⟩ := List.mem_map.mp hoo
        rw [← hso] at hvv
        exact getD_prop (fun oo => ∀ vv : ℝ, oo = some vv → 0 ≤ vv ∧ vv ≤ 100) s.2.2 m
          (hsecfacts s hs).2 (fun vv hvv => absurd hvv (by simp)) vv hvv
      · apply normWeights_nonneg
        intro w hw
        obtain ⟨s, hs, hsw⟩ := List.mem_map.mp hw
        obtain ⟨sec, hsec, hss, hwq⟩ := hsecmem s hs
        rw [← hsw, hwq]
        exact (hwts sec hsec).1
    refine ⟨?_, ⟨by simp, hheadline⟩, ?_, ?_⟩
    · intro p hp
      obtain ⟨s, hs, hsp⟩ := List.mem_map.mp hp
      rw [← hsp]
      exact hsecfacts s hs
    · rw [ewma, ewmaGo_length]
      simp
    · have ha0 : 0 < 2 / ((cfg.span_months.getD 3 : ℝ) + 1) := by
        apply div_pos
        · norm_num
        · positivity
      have ha1 : 2 / ((cfg.span_months.getD 3 : ℝ) + 1) ≤ 1 := by
        rw [div_le_one (by positivity)]
        have : (1 : ℝ) ≤ (cfg.span_months.getD 3 : ℝ) := by
          exact_mod_cast hspan
        linarith
      rw [ewma]
      exact ewmaGo_bounds _ ha0 ha1 _ none 1 (by norm_num)
        (fun m hm => absurd hm (by simp)) hheadline

/-- Witness for C9 at the concrete `cfg7`/`rows7` run: the data-model
hypotheses hold and the three outputs are aligned on the 3-month grid
with every entry missing (vacuously inside `[0, 100]`). -/
theorem C9_outputs_bounded_and_aligned_witness :
    (∀ p ∈ ([("s1", [none, none, none])] : List (String × List (Option ℝ))),
      p.2.length = (gridOf rows7).length ∧
      ∀ o ∈ p.2, ∀ v : ℝ, o = some v → 0 ≤ v ∧ v ≤ 100) ∧
    (([none, none, none] : List (Option ℝ)).length = (gridOf rows7).length ∧
      ∀ o ∈ ([none, none, none] : List (Option ℝ)), ∀ v : ℝ,
        o = some v → 0 ≤ v ∧ v ≤ 100) ∧
    (([none, none, none] : List (Option ℝ)).length = (gridOf rows7).length ∧
      ∀ o ∈ ([none, none, none] : List (Option ℝ)), ∀ v : ℝ,
        o = some v → 0 ≤ v ∧ v ≤ 100) := by
  have h := C9_outputs_bounded_and_aligned cfg7 rows7
    ([("s1", [none, none, none])], [none, none, none], [none, none, none])
    (by
      intro sec hsec
      rw [show cfg7.sections = [sec7] from rfl] at hsec
      rw [List.mem_singleton.mp hsec]
      constructor
      · norm_num [sec7]
      · intro ind hind w hw
        rw [show sec7.indicators = [ind7] from rfl] at hind
        rw [List.mem_singleton.mp hind] at hw
        rw [show ind7.section_weight = some 1 from rfl] at hw
        have hw1 := (Option.some.injEq _ _).mp hw
        rw [← hw1]
        norm_num)
    (by
      show (1 : ℕ) ≤ 3
      norm_num)
    compute_cfg7_rows7
  exact h

/-! ### C1: the end-to-end 13-month scenario -/

theorem listMean_replicate (n : ℕ) (x : ℝ) : listMean (List.replicate (n + 1) x) = x := by
  rw [listMean, List.sum_replicate, List.length_replicate, nsmul_eq_mul]
  have hne : ((n : ℝ) + 1) ≠ 0 := by positivity
  push_cast
  field_simp

theorem listPopVar_replicate (n : ℕ) (x : ℝ) : listPopVar (List.replicate (n + 1) x) = 0 := by
  rw [listPopVar, listMean_replicate, List.map_replicate]
  simp

theorem listPopStd_replicate (n : ℕ) (x : ℝ) : listPopStd (List.replicate (n + 1) x) = 0 := by
  rw [listPopStd, listPopVar_replicate, Real.sqrt_zero]

theorem zscoreAt_none_of_std_zero (xs : List (Option ℝ)) (w mp : ℕ) (c s : ℝ) (i : ℕ)
    (x : ℝ) (hx : xs.getD i none = some x) (hstd : listPopStd (winObs xs w i) = 0) :
    zscoreAt xs w mp c s i = none := by
  rw [zscoreAt, hx]
  simp [hstd]

theorem c1_eval : compute_indicator_score series13 spec1 =
    List.replicate 12 none ++ [some 100] := by
  have h1 : compute_indicator_score series13 spec1 = zscore_normalise series13 12 3 2 := rfl
  rw [h1, zscore_normalise, show series13.length = 13 from rfl,
    show max 6 (12 / 2) = 6 from rfl]
  have e5 : zscoreAt series13 12 6 3 2 5 = none :=
    zscoreAt_none_of_std_zero _ _ _ _ _ _ 10 rfl
      (by rw [show winObs series13 12 5 = List.replicate 6 10 from rfl]
          exact listPopStd_replicate 5 10)
  have e6 : zscoreAt series13 12 6 3 2 6 = none :=
    zscoreAt_none_of_std_zero _ _ _ _ _ _ 10 rfl
      (by rw [show winObs series13 12 6 = List.replicate 7 10 from rfl]
          exact listPopStd_replicate 6 10)
  have e7 : zscoreAt series13 12 6 3 2 7 = none :=
    zscoreAt_none_of_std_zero _ _ _ _ _ _ 10 rfl
      (by rw [show winObs series13 12 7 = List.replicate 8 10 from rfl]
          exact listPopStd_replicate 7 10)
  have e8 : zscoreAt series13 12 6 3 2 8 = none :=
    zscoreAt_none_of_std_zero _ _ _ _ _ _ 10 rfl
      (by rw [show winObs series13 12 8 = List.replicate 9 10 from rfl]
          exact listPopStd_replicate 8 10)
  have e9 : zscoreAt series13 12 6 3 2 9 = none :=
    zscoreAt_none_of_std_zero _ _ _ _ _ _ 10 rfl
      (by rw [show winObs series13 12 9 = List.replicate 10 10 from rfl]
          exact listPopStd_replicate 9 10)
  have e10 : zscoreAt series13 12 6 3 2 10 = none :=
    zscoreAt_none_of_std_zero _ _ _ _ _ _ 10 rfl
      (by rw [show winObs series13 12 10 = List.replicate 11 10 from rfl]
          exact listPopStd_replicate 10 10)
  have e11 : zscoreAt series13 12 6 3 2 11 = none :=
    zscoreAt_none_of_std_zero _ _ _ _ _ _ 10 rfl
      (by rw [show winObs series13 12 11 = List.replicate 12 10 from rfl]
          exact listPopStd_replicate 11 10)
  have hmean : listMean (List.replicate 11 (10 : ℝ) ++ [20]) = 65 / 6 := by
    rw [listMean, List.sum_append, List.sum_replicate, List.length_append,
      List.length_replicate, nsmul_eq_mul]
    norm_num
  have hvar : listPopVar (List.replicate 11 (10 : ℝ) ++ [20]) = 275 / 36 := by
    rw [listPopVar, hmean, List.map_append, List.map_replicate, List.sum_append,
      List.sum_replicate, List.length_append, List.length_replicate, nsmul_eq_mul]
    norm_num
  have hS : listPopStd (List.replicate 11 (10 : ℝ) ++ [20]) = Real.sqrt (275 / 36) := by
    rw [listPopStd, hvar]
  have hSpos : 0 < Real.sqrt (275 / 36) := Real.sqrt_pos.mpr (by norm_num)
  have hSle : Real.sqrt (275 / 36) ≤ 55 / 18 := by
    calc Real.sqrt (275 / 36) ≤ Real.sqrt ((55 / 18) ^ 2) := Real.sqrt_le_sqrt (by norm_num)
      _ = 55 / 18 := Real.sqrt_sq (by norm_num)
  have hz3 : 3 ≤ (20 - 65 / 6) / Real.sqrt (275 / 36) := by
    rw [le_div_iff₀ hSpos]
    nlinarith [hSle, hSpos]
  have e12 : zscoreAt series13 12 6 3 2 12 = some 100 := by
    rw [zscoreAt, show series13.getD 12 none = some 20 from rfl]
    simp only [show winObs series13 12 12 = List.replicate 11 10 ++ [20] from rfl,
      List.length_append, List.length_replicate, hS, hmean]
    rw [if_neg (by norm_num), if_neg (ne_of_gt hSpos)]
    have hclip : min 3 (max (-3) ((20 - 65 / 6) / Real.sqrt (275 / 36))) = 3 := by
      rw [max_eq_right (by linarith : (-3 : ℝ) ≤ (20 - 65 / 6) / Real.sqrt (275 / 36)),
        min_eq_left hz3]
    rw [hclip]
    norm_num [min_def, max_def]
  simp only [List.range_succ, List.range_zero, List.map_append, List.map_cons, List.map_nil,
    List.nil_append, e5, e6, e7, e8, e9, e10, e11, e12]
  rw [show zscoreAt series13 12 6 3 2 0 = none from rfl,
    show zscoreAt series13 12 6 3 2 1 = none from rfl,
    show zscoreAt series13 12 6 3 2 2 = none from rfl,
    show zscoreAt series13 12 6 3 2 3 = none from rfl,
    show zscoreAt series13 12 6 3 2 4 = none from rfl]
  rfl

/-- C1 counterexample: on the spec's own 13-month scenario the score at
month 6 (index 5) is missing, not ≈ 50 — the flat window has zero
rolling std — and the score at the jump month (index 12) is 100, which
exceeds the claimed cap of 85 (clip 3 maps to 50 + (3/2)·35 = 102.5,
clipped to 100). -/
theorem C1_counterexample :
    (compute_indicator_score series13 spec1).get? 5 = some none ∧
    (compute_indicator_score series13 spec1).get? 12 = some (some 100) ∧
    (85 : ℝ) < 100 := by
  rw [c1_eval]
  refine ⟨rfl, rfl, by norm_num⟩

/-- C1 amended: on the 13-month series `[10 × 12, 20]` with weight 1,
level transform, higher-is-worse and zscore normalisation (window 12,
min_periods 6, clip 3, z_to_100_sigma 2), the score is missing for
months 1–5 (insufficient window observations), missing for months 6–12
as well (flat window, zero rolling std), and equals 100 at month 13:
the jump's z-score √11 ≈ 3.32 is clipped to 3, which maps to 102.5 —
above 85 because clip exceeds z_to_100_sigma — and is then clipped into
[0, 100]. -/
theorem C1_amended : compute_indicator_score series13 spec1 =
    List.replicate 12 none ++ [some 100] := c1_eval

end MomEngine
